import Mathlib

/-
  Verification development for the connection/session coordination engine of
  the two-player drawing duel server (src/server/websocket.ts).

  The server code is shallowly embedded as pure Lean functions over an explicit
  server state.  JavaScript Maps keyed by id are modelled as lists looked up by
  an id field (Map.set that inserts a fresh key appends, preserving iteration
  order); object references held by rooms and by the matchmaking queue are
  modelled as connection ids resolved against the connection registry, which
  matches the reference semantics as long as the referenced entry is present.
  Persistence-gateway calls (createGame / updateGame / createTurn) are external
  and fallible: each call site receives an explicit Boolean outcome telling
  whether the awaited call succeeded or threw.  Wall-clock reads (Date.now) are
  passed in as a "now" parameter.  Outbound frames are recorded as a list of
  (recipient connection id, message) pairs in the order the source invokes
  sendMessage; sendMessage silently dropping frames on a closed socket is not
  modelled, since every claim concerns whether a send is attempted at all.
-/

namespace WsCore

/-- Constant MAX_MESSAGES_PER_MINUTE from src/server/websocket.ts. -/
def MAX_MESSAGES_PER_MINUTE : Nat := 300

/-- Constant RATE_LIMIT_WINDOW (ms) from src/server/websocket.ts. -/
def RATE_LIMIT_WINDOW : Nat := 60000

/-- Constant MATCHMAKING_TIMEOUT (ms) from src/server/websocket.ts. -/
def MATCHMAKING_TIMEOUT : Nat := 120000

/-- Constant ROOM_CLEANUP_DELAY (ms) from src/server/websocket.ts. -/
def ROOM_CLEANUP_DELAY : Nat := 120000

/-- The two seats of a room ("player1" / "player2" in the source). -/
inductive Role where
  | player1
  | player2
deriving DecidableEq, Repr

/-- The opposite seat ("conn.playerRole === "player1" ? "player2" : "player1""). -/
def Role.other : Role → Role
  | .player1 => .player2
  | .player2 => .player1

/-- PlayerConnection from src/server/websocket.ts.  The ws socket handle is
reduced to the one observable fact the core reads from it, whether readyState
is OPEN (field wsOpen); playerName is irrelevant to every claim and omitted. -/
structure PlayerConnection where
  id : Nat
  gameId : Option Nat
  playerRole : Option Role
  isAlive : Bool
  messageCount : Nat
  rateLimitReset : Nat
  joinedAt : Nat
  wsOpen : Bool
deriving DecidableEq, Repr

/-- GameRoom from src/server/websocket.ts; the two seat slots hold the id of
the occupying connection (the source holds an object reference or null). -/
structure GameRoom where
  gameId : Nat
  player1 : Option Nat
  player2 : Option Nat
  currentRound : Nat
  currentPlayer : Role
  totalRounds : Nat
  status : String
  completedAt : Option Nat
deriving DecidableEq, Repr

/-- The seat slot of a room for a given role. -/
def GameRoom.seat (r : GameRoom) : Role → Option Nat
  | .player1 => r.player1
  | .player2 => r.player2

/-- Writing a seat slot of a room. -/
def GameRoom.setSeat (r : GameRoom) : Role → Option Nat → GameRoom
  | .player1, v => { r with player1 := v }
  | .player2, v => { r with player2 := v }

/-- A stroke as carried by a draw_stroke client message (id, path, color,
strokeWidth per the shared schema). -/
structure Stroke where
  sid : String
  path : String
  color : String
  strokeWidth : Nat
deriving DecidableEq, Repr

/-- The decoded client message union: exactly the six variants of
wsClientMessageSchema (src/shared/schema.ts lines 101..127) — join_queue,
leave_queue, draw_stroke, draw_clear, submit_turn and ping.  The schema has NO
draw_undo variant, so the "draw_undo" switch case of the dispatcher
(src/server/websocket.ts lines 449..464) is dead code and has no counterpart
here; a frame carrying that type never passes validation (see
wsClientMessageParse).  The strokes payload of submit_turn is never inspected
by the server, only persisted and relayed, so it is modelled as an opaque
token. -/
inductive ClientMsg where
  | ping
  | joinQueue
  | leaveQueue
  | drawStroke (stroke : Stroke)
  | drawClear
  | submitTurn (strokes : Nat)
deriving DecidableEq, Repr

/-- Server-to-client messages (WsServerMessage), with the fields the source
fills in at each send site. -/
inductive ServerMsg where
  | errorMsg (message : String) (code : String)
  | pong
  | queueJoined (position : Nat)
  | queueLeft
  | matchFound (gameId : Nat) (playerRole : Role) (opponentId : Option Nat)
  | gameState (gameId : Nat) (currentRound : Nat) (currentPlayer : Role)
      (totalRounds : Nat) (status : String)
  | turnSubmitted (playerRole : Role) (round : Nat) (strokes : Nat)
  | roundComplete (round : Nat) (nextRound : Nat)
  | gameComplete (gameId : Nat)
  | opponentStroke (stroke : Stroke)
  | opponentClear
  | opponentDisconnected
deriving DecidableEq, Repr

/-- Outbound frames: recipient connection id paired with the message, in the
order the source calls sendMessage. -/
abbrev Outbox := List (Nat × ServerMsg)

/-- The process-wide mutable registries of src/server/websocket.ts:
the connections Map, the matchmakingQueue array and the gameRooms Map.
nextGameId models the persistence gateway handing out a fresh game id on each
successful createGame (game ids are unique database keys). -/
structure ServerState where
  connections : List PlayerConnection
  matchmakingQueue : List Nat
  gameRooms : List GameRoom
  nextGameId : Nat
deriving DecidableEq, Repr

/-- connections.get(id). -/
def findConn (s : ServerState) (connId : Nat) : Option PlayerConnection :=
  s.connections.find? (fun c => c.id == connId)

/-- Mutating the connection object held in the registry (reference update). -/
def updateConn (s : ServerState) (c : PlayerConnection) : ServerState :=
  { s with connections := s.connections.map (fun d => if d.id == c.id then c else d) }

/-- connections.delete(id). -/
def deleteConn (s : ServerState) (connId : Nat) : ServerState :=
  { s with connections := s.connections.filter (fun c => c.id != connId) }

/-- gameRooms.get(id). -/
def findRoom (s : ServerState) (g : Nat) : Option GameRoom :=
  s.gameRooms.find? (fun r => r.gameId == g)

/-- Mutating the room object held in the registry (reference update). -/
def setRoom (s : ServerState) (r : GameRoom) : ServerState :=
  { s with gameRooms := s.gameRooms.map (fun q => if q.gameId == r.gameId then r else q) }

/-- gameRooms.delete(id). -/
def deleteRoom (s : ServerState) (g : Nat) : ServerState :=
  { s with gameRooms := s.gameRooms.filter (fun r => r.gameId != g) }

/-- gameRooms.set(id, room): replace when present, insert (append) otherwise. -/
def putRoom (s : ServerState) (r : GameRoom) : ServerState :=
  if (findRoom s r.gameId).isSome then setRoom s r
  else { s with gameRooms := s.gameRooms ++ [r] }

/-- Setting conn.gameId and conn.playerRole on the registered connection. -/
def bindConn (s : ServerState) (connId : Nat) (g : Option Nat) (role : Option Role) :
    ServerState :=
  { s with connections := s.connections.map (fun c =>
      if c.id == connId then { c with gameId := g, playerRole := role } else c) }

/-- isRateLimited from src/server/websocket.ts (lines 69..77): reset the
counter when now has passed rateLimitReset, then count this message and report
whether the count exceeded MAX_MESSAGES_PER_MINUTE.  Returns the mutated
connection and the verdict. -/
def rateLimitStep (now : Nat) (c : PlayerConnection) : PlayerConnection × Bool :=
  let c1 := if now > c.rateLimitReset then
      { c with messageCount := 0, rateLimitReset := now + RATE_LIMIT_WINDOW }
    else c
  let c2 := { c1 with messageCount := c1.messageCount + 1 }
  (c2, c2.messageCount > MAX_MESSAGES_PER_MINUTE)

/-- Feeding a sequence of message arrival times through isRateLimited for one
connection; yields the list of "limited" verdicts in order. -/
def runRateLimiter (c : PlayerConnection) : List Nat → List Bool
  | [] => []
  | t :: ts =>
    let p := rateLimitStep t c
    p.2 :: runRateLimiter p.1 ts

/-- removeFromQueue from src/server/websocket.ts (indexOf + splice removes the
first occurrence). -/
def removeFromQueue (connId : Nat) (q : List Nat) : List Nat :=
  q.erase connId

/-- cleanupConnection from src/server/websocket.ts (lines 117..150): drop the
connection from the queue; if it is bound to an existing room, vacate its seat,
notify the other occupant, mark a non-completed room abandoned (stamping
completedAt with now; the fire-and-forget updateGame persistence call has no
in-memory effect and is elided), delete the room once both seats are empty;
finally unregister the connection. -/
def cleanupConnection (now : Nat) (connId : Nat) (s : ServerState) :
    ServerState × Outbox :=
  match findConn s connId with
  | none => (s, [])
  | some conn =>
    let s1 := { s with matchmakingQueue := removeFromQueue connId s.matchmakingQueue }
    match conn.gameId, conn.playerRole with
    | some g, some role =>
      (match findRoom s1 g with
       | some room =>
         let otherSeat := room.seat role.other
         let room1 := room.setSeat role none
         let out : Outbox :=
           match otherSeat with
           | some oc => [(oc, ServerMsg.opponentDisconnected)]
           | none => []
         let room2 := if room1.status != "completed" then
             { room1 with status := "abandoned", completedAt := some now }
           else room1
         let s2 := if room2.player1 == none && room2.player2 == none then
             deleteRoom s1 g
           else setRoom s1 room2
         (deleteConn s2 connId, out)
       | none => (deleteConn s1 connId, []))
    | _, _ => (deleteConn s1 connId, [])

/-- Is the optional connection live ("p && p.ws.readyState === WebSocket.OPEN"). -/
def connLive : Option PlayerConnection → Bool
  | some c => c.wsOpen
  | none => false

/-- attemptMatchmaking from src/server/websocket.ts (lines 152..235).  The
while loop pops the two oldest queued ids, drops dead entries (re-queueing a
live partner at the front), and otherwise performs the pairing transaction:
createGame, room registration, seat binding, updateGame to status active, and
the four notification sends; if either awaited persistence call throws, the
catch block pushes p1Id and then p2Id back onto the FRONT of the queue and the
loop iterates again.  Each pairing transaction consumes one oracle entry
(createGame outcome, updateGame outcome); when no further outcome is scheduled
the run stops with the popped ids restored, and the fuel parameter bounds the
number of loop iterations (the source loop can iterate unboundedly while the
gateway keeps failing). -/
def attemptMatchmaking (now : Nat) :
    Nat → List (Bool × Bool) → ServerState → ServerState × Outbox
  | 0, _, s => (s, [])
  | fuel + 1, oracle, s =>
    match s.matchmakingQueue with
    | p1Id :: p2Id :: rest =>
      let s1 := { s with matchmakingQueue := rest }
      let p1 := findConn s1 p1Id
      let p2 := findConn s1 p2Id
      if !connLive p1 then
        let s2 := if connLive p2 then
            { s1 with matchmakingQueue := p2Id :: rest }
          else s1
        attemptMatchmaking now fuel oracle s2
      else if !connLive p2 then
        attemptMatchmaking now fuel oracle { s1 with matchmakingQueue := p1Id :: rest }
      else
        match oracle with
        | [] => ({ s1 with matchmakingQueue := p1Id :: p2Id :: rest }, [])
        | (createOk, updateOk) :: oracleRest =>
          if createOk then
            let gid := s1.nextGameId
            let room : GameRoom :=
              { gameId := gid, player1 := some p1Id, player2 := some p2Id,
                currentRound := 1, currentPlayer := .player1, totalRounds := 3,
                status := "active", completedAt := none }
            let s2 := putRoom { s1 with nextGameId := s1.nextGameId + 1 } room
            let s3 := bindConn (bindConn s2 p1Id (some gid) (some .player1))
                        p2Id (some gid) (some .player2)
            if updateOk then
              let msgs : Outbox :=
                [(p1Id, ServerMsg.matchFound gid .player1 (some p2Id)),
                 (p2Id, ServerMsg.matchFound gid .player2 (some p1Id)),
                 (p1Id, ServerMsg.gameState gid 1 .player1 3 "active"),
                 (p2Id, ServerMsg.gameState gid 1 .player1 3 "active")]
              let res := attemptMatchmaking now fuel oracleRest s3
              (res.1, msgs ++ res.2)
            else
              attemptMatchmaking now fuel oracleRest
                { s3 with matchmakingQueue := p2Id :: p1Id :: rest }
          else
            attemptMatchmaking now fuel oracleRest
              { s1 with matchmakingQueue := p2Id :: p1Id :: rest }
    | _ => (s, [])

/-- Result of the validation section of handleSubmitTurn that runs before the
first await (src/server/websocket.ts lines 238..257): either an error frame is
sent back immediately, or the handler proceeds into the try block having
captured the game id and the seat of the sender. -/
inductive SubmitCheck where
  | rejected (out : Outbox)
  | proceed (gameId : Nat) (role : Role)
deriving DecidableEq, Repr

/-- The pre-await validation of handleSubmitTurn: NOT_IN_GAME when the binding
is missing, ROOM_NOT_FOUND when the room is gone, GAME_COMPLETED only when
status is the string "completed", NOT_YOUR_TURN when the sender does not hold
currentPlayer. -/
def submitPhase1 (s : ServerState) (conn : PlayerConnection) : SubmitCheck :=
  match conn.gameId, conn.playerRole with
  | some g, some role =>
    (match findRoom s g with
     | none => .rejected [(conn.id, .errorMsg "Game room not found" "ROOM_NOT_FOUND")]
     | some room =>
       if room.status == "completed" then
         .rejected [(conn.id, .errorMsg "Game is already completed" "GAME_COMPLETED")]
       else if room.currentPlayer != role then
         .rejected [(conn.id, .errorMsg "Not your turn" "NOT_YOUR_TURN")]
       else .proceed g role)
  | _, _ => .rejected [(conn.id, .errorMsg "Not in a game" "NOT_IN_GAME")]

/-- Sending one message to each occupied seat of a room, player1 first
(the "if (room.player1) sendMessage(room.player1, msg); if (room.player2) ..."
pattern of the source). -/
def broadcastRoom (room : GameRoom) (m : ServerMsg) : Outbox :=
  (match room.player1 with
   | some c => [(c, m)]
   | none => []) ++
  (match room.player2 with
   | some c => [(c, m)]
   | none => [])

/-- The continuation of handleSubmitTurn after the awaited createTurn call has
succeeded (src/server/websocket.ts lines 267..350): relay turn_submitted to the
other seat and echo it to the sender, then commit the turn transition on the
room object (flip to player2, or on the second submission of the round either
advance the round or complete the game), persist it with updateGame, and send
the completion / round / state broadcasts; if updateGame throws, the catch
block sends SUBMIT_FAILED to the sender but the in-memory mutation has already
been applied.  The room is read at resumption time; no re-validation of its
status is performed.  If the registry entry is gone the source would still
mutate and message the captured orphan object, an effect invisible in the
registry; that orphan path is modelled as a no-op and no claim depends on it. -/
def submitResume (now : Nat) (s : ServerState) (senderId : Nat) (g : Nat)
    (role : Role) (strokes : Nat) (updateGameOk : Bool) : ServerState × Outbox :=
  match findRoom s g with
  | none => (s, [])
  | some room =>
    let m1 : Outbox :=
      (match room.seat role.other with
       | some oc => [(oc, ServerMsg.turnSubmitted role room.currentRound strokes)]
       | none => []) ++
      [(senderId, ServerMsg.turnSubmitted role room.currentRound strokes)]
    if room.currentPlayer == Role.player2 then
      if room.currentRound ≥ room.totalRounds then
        let room1 := { room with
          status := "completed", completedAt := some now, currentPlayer := Role.player1 }
        let s1 := setRoom s room1
        if updateGameOk then
          (s1, m1 ++ broadcastRoom room1 (.gameComplete g))
        else
          (s1, m1 ++ [(senderId, .errorMsg "Failed to submit turn" "SUBMIT_FAILED")])
      else
        let nextRound := room.currentRound + 1
        let room1 := { room with currentRound := nextRound, currentPlayer := Role.player1 }
        let s1 := setRoom s room1
        if updateGameOk then
          (s1, m1 ++ broadcastRoom room1 (.roundComplete (nextRound - 1) nextRound)
                  ++ broadcastRoom room1 (.gameState g nextRound .player1 room.totalRounds "active"))
        else
          (s1, m1 ++ [(senderId, .errorMsg "Failed to submit turn" "SUBMIT_FAILED")])
    else
      let room1 := { room with currentPlayer := Role.player2 }
      let s1 := setRoom s room1
      if updateGameOk then
        (s1, m1 ++ broadcastRoom room1
               (.gameState g room.currentRound .player2 room.totalRounds "active"))
      else
        (s1, m1 ++ [(senderId, .errorMsg "Failed to submit turn" "SUBMIT_FAILED")])

/-- handleSubmitTurn from src/server/websocket.ts (lines 237..355), run to
completion: pre-await validation, then the awaited createTurn call whose
outcome createTurnOk is supplied by the environment (a throw lands in the catch
block, sending SUBMIT_FAILED with no state mutated), then the resumed
continuation with its own updateGame outcome. -/
def handleSubmitTurn (now : Nat) (s : ServerState) (conn : PlayerConnection)
    (strokes : Nat) (createTurnOk updateGameOk : Bool) : ServerState × Outbox :=
  match submitPhase1 s conn with
  | .rejected out => (s, out)
  | .proceed g role =>
    if createTurnOk then
      submitResume now s conn.id g role strokes updateGameOk
    else
      (s, [(conn.id, .errorMsg "Failed to submit turn" "SUBMIT_FAILED")])

/-- One character of the stroke path grammar, the character class of the source
regex of line 431 (move/line commands, digits, whitespace, comma, dot, minus;
the \s class is modelled by its ASCII members). -/
def isPathChar (c : Char) : Bool :=
  c == 'M' || c == 'L' || c == 'm' || c == 'l' || c.isDigit ||
  c == ' ' || c == '\t' || c == '\n' || c == '\r' || c == '\x0b' || c == '\x0c' ||
  c == ',' || c == '.' || c == '-'

/-- The pathRegex test of src/server/websocket.ts line 431..432: one or more
characters of the restricted path alphabet. -/
def validPath (p : String) : Bool :=
  p.length > 0 && p.data.all isPathChar

/-- A hexadecimal digit. -/
def isHexChar (c : Char) : Bool :=
  c.isDigit || ('A' ≤ c && c ≤ 'F') || ('a' ≤ c && c ≤ 'f')

/-- The colorRegex test of src/server/websocket.ts line 436..437: a hash
followed by 3 to 8 hex digits, or a nonempty bare alphabetic name. -/
def validColor (col : String) : Bool :=
  (match col.data with
   | '#' :: rest => decide (3 ≤ rest.length) && decide (rest.length ≤ 8)
       && rest.all isHexChar
   | _ => false)
  || (col.length > 0 && col.data.all Char.isAlpha)

/-- The message dispatch of handleMessage from src/server/websocket.ts
(lines 357..492).  Frames are modelled after decoding and schema validation
(the encoding / size / JSON / schema rejection layers touch no registry state
and no claim depends on them); rate limiting comes first, exactly as in the
source where it precedes even the decoding steps.  The asynchronous calls
fired from the dispatch (attemptMatchmaking from join_queue, handleSubmitTurn
from submit_turn) are run to completion with their persistence outcomes drawn
from the supplied oracles. -/
def handleMessage (now : Nat) (s : ServerState) (connId : Nat) (msg : ClientMsg)
    (submitOracle : Bool × Bool) (mmOracle : List (Bool × Bool)) (mmFuel : Nat) :
    ServerState × Outbox :=
  match findConn s connId with
  | none => (s, [])
  | some conn0 =>
    let rl := rateLimitStep now conn0
    let conn := rl.1
    let s := updateConn s conn
    if rl.2 then
      (s, [(connId, .errorMsg "Rate limited, slow down" "RATE_LIMITED")])
    else
      match msg with
      | .ping => (s, [(connId, .pong)])
      | .joinQueue =>
        if conn.gameId.isSome then
          (s, [(connId, .errorMsg "Already in a game" "ALREADY_IN_GAME")])
        else if s.matchmakingQueue.contains connId then
          (s, [(connId, .errorMsg "Already in queue" "ALREADY_IN_QUEUE")])
        else
          let s1 := updateConn s { conn with joinedAt := now }
          let s2 := { s1 with matchmakingQueue := s1.matchmakingQueue ++ [connId] }
          let res := attemptMatchmaking now mmFuel mmOracle s2
          (res.1, (connId, ServerMsg.queueJoined s2.matchmakingQueue.length) :: res.2)
      | .leaveQueue =>
        ({ s with matchmakingQueue := removeFromQueue connId s.matchmakingQueue },
         [(connId, .queueLeft)])
      | .drawStroke stroke =>
        (match conn.gameId, conn.playerRole with
         | some g, some role =>
           (match findRoom s g with
            | some room =>
              if room.currentPlayer != role then (s, [])
              else if !validPath stroke.path then
                (s, [(connId, .errorMsg "Invalid stroke path" "INVALID_STROKE")])
              else if !validColor stroke.color then
                (s, [(connId, .errorMsg "Invalid stroke color" "INVALID_STROKE")])
              else
                (match room.seat role.other with
                 | some oc => (s, [(oc, .opponentStroke stroke)])
                 | none => (s, []))
            | none => (s, []))
         | _, _ => (s, [(connId, .errorMsg "Not in a game" "NOT_IN_GAME")]))
      | .drawClear =>
        (match conn.gameId, conn.playerRole with
         | some g, some role =>
           (match findRoom s g with
            | none => (s, [(connId, .errorMsg "Game room not found" "ROOM_NOT_FOUND")])
            | some room =>
              if room.currentPlayer != role then
                (s, [(connId, .errorMsg "Not your turn" "NOT_YOUR_TURN")])
              else
                (match room.seat role.other with
                 | some oc => (s, [(oc, .opponentClear)])
                 | none => (s, [])))
         | _, _ => (s, [(connId, .errorMsg "Not in a game" "NOT_IN_GAME")]))
      | .submitTurn strokes =>
        handleSubmitTurn now s conn strokes submitOracle.1 submitOracle.2

/-- A JSON object frame as it reaches schema validation: the "type"
discriminator plus the optional payload fields the schema variants can carry
(a wellformed stroke object for draw_stroke, the opaque strokes payload for
submit_turn).  Frames whose payloads do not even decode into these shapes are
a fortiori rejected by the schema and are not distinguished here. -/
structure RawFrame where
  ftype : String
  stroke : Option Stroke
  strokes : Option Nat
deriving DecidableEq, Repr

/-- The per-field stroke constraints of the draw_stroke schema variant
(src/shared/schema.ts lines 108..116): id at most 50 characters, path at most
50000, color at most 20, strokeWidth between 1 and 50. -/
def validSchemaStroke (st : Stroke) : Bool :=
  decide (st.sid.length ≤ 50) && decide (st.path.length ≤ 50000) &&
  decide (st.color.length ≤ 20) &&
  decide (1 ≤ st.strokeWidth) && decide (st.strokeWidth ≤ 50)

/-- wsClientMessageSchema.safeParse (src/shared/schema.ts lines 101..127): the
discriminated union admits exactly join_queue, leave_queue, draw_stroke (with
a conforming stroke), draw_clear, submit_turn (with a strokes payload, whose
array bound lives inside the opaque token) and ping.  Every other "type" —
including "draw_undo" — fails validation. -/
def wsClientMessageParse (frame : RawFrame) : Option ClientMsg :=
  if frame.ftype == "join_queue" then some .joinQueue
  else if frame.ftype == "leave_queue" then some .leaveQueue
  else if frame.ftype == "draw_stroke" then
    match frame.stroke with
    | some st => if validSchemaStroke st then some (.drawStroke st) else none
    | none => none
  else if frame.ftype == "draw_clear" then some .drawClear
  else if frame.ftype == "submit_turn" then
    match frame.strokes with
    | some payload => some (.submitTurn payload)
    | none => none
  else if frame.ftype == "ping" then some .ping
  else none

/-- The inbound pipeline of handleMessage for a JSON-decoded object frame
(src/server/websocket.ts lines 357..394): rate limiting comes first, then
schema validation — a frame that fails wsClientMessageSchema.safeParse is
answered with VALIDATION_FAILED and never reaches the dispatch; a conforming
frame is dispatched.  Parsing is pure, so branching on the parse outcome
before replaying the rate-limit step (inside handleMessage on the success
path, inline on the failure path) is observationally the order of the source.
The encoding, size and JSON-syntax rejection layers upstream of validation
are not modelled. -/
def handleRawMessage (now : Nat) (s : ServerState) (connId : Nat)
    (frame : RawFrame) (submitOracle : Bool × Bool)
    (mmOracle : List (Bool × Bool)) (mmFuel : Nat) : ServerState × Outbox :=
  match wsClientMessageParse frame with
  | some msg => handleMessage now s connId msg submitOracle mmOracle mmFuel
  | none =>
    match findConn s connId with
    | none => (s, [])
    | some conn0 =>
      let rl := rateLimitStep now conn0
      let s1 := updateConn s rl.1
      if rl.2 then
        (s1, [(connId, .errorMsg "Rate limited, slow down" "RATE_LIMITED")])
      else
        (s1, [(connId, .errorMsg "Invalid message format" "VALIDATION_FAILED")])

/-- Is a terminal room old enough for the cleanup sweep to reap it
(the condition of src/server/websocket.ts lines 546..550; completedAt is
tested for truthiness, so a zero timestamp never qualifies). -/
def roomExpired (now : Nat) (r : GameRoom) : Bool :=
  (match r.completedAt with
   | some t => t != 0
   | none => false) &&
  (r.status == "completed" || r.status == "abandoned") &&
  decide (now - (r.completedAt.getD 0) > ROOM_CLEANUP_DELAY)

/-- The roomCleanupTimer sweep of src/server/websocket.ts (lines 543..562):
every expired terminal room is deleted after unbinding any still-bound seats.
The source iterates the Map deleting entries as it goes; since room ids are
unique database keys, this is the same as keeping exactly the unexpired rooms
and unbinding every connection seated in an expired one. -/
def roomCleanupSweep (now : Nat) (s : ServerState) : ServerState :=
  let expired := s.gameRooms.filter (fun r => roomExpired now r)
  { s with
    connections := s.connections.map (fun c =>
      if expired.any (fun r => r.player1 == some c.id || r.player2 == some c.id) then
        { c with gameId := none, playerRole := none }
      else c),
    gameRooms := s.gameRooms.filter (fun r => !roomExpired now r) }

/-- The matchmakingTimer sweep of src/server/websocket.ts (lines 527..541):
dead queue entries are dropped silently; live entries whose wait exceeds
MATCHMAKING_TIMEOUT are dropped with a MATCHMAKING_TIMEOUT error.  The source
walks the array backwards splicing entries out; the surviving queue is the
same as this filter, and the timeout notices are listed here in queue order. -/
def queueTimeoutSweep (now : Nat) (s : ServerState) : ServerState × Outbox :=
  let keep : Nat → Bool := fun cid =>
    match findConn s cid with
    | some c => c.wsOpen && !(decide (now - c.joinedAt > MATCHMAKING_TIMEOUT))
    | none => false
  let timedOut : Nat → Bool := fun cid =>
    match findConn s cid with
    | some c => c.wsOpen && decide (now - c.joinedAt > MATCHMAKING_TIMEOUT)
    | none => false
  ({ s with matchmakingQueue := s.matchmakingQueue.filter keep },
   (s.matchmakingQueue.filter timedOut).map
     (fun cid => (cid, ServerMsg.errorMsg "Matchmaking timed out" "MATCHMAKING_TIMEOUT")))

/-- The heartbeatTimer sweep of src/server/websocket.ts (lines 509..525):
every connection that failed to pong since the last sweep is terminated and
cleaned up; the rest have their liveness flag cleared and are pinged (the ping
itself and its throw-then-cleanup fallback are not modelled).  The Map is
iterated over a snapshot of ids, rechecking registration because a cleanup can
cascade into removing other entries. -/
def heartbeatVisit (now : Nat) (acc : ServerState × Outbox) (cid : Nat) :
    ServerState × Outbox :=
  match findConn acc.1 cid with
  | none => acc
  | some c =>
    if !c.isAlive then
      let r := cleanupConnection now cid acc.1
      (r.1, acc.2 ++ r.2)
    else
      (updateConn acc.1 { c with isAlive := false }, acc.2)

/-- The per-connection loop body of the heartbeat sweep, folded over a
snapshot of the registered ids. -/
def heartbeatSweep (now : Nat) (s : ServerState) : ServerState × Outbox :=
  (s.connections.map (fun c => c.id)).foldl (heartbeatVisit now) (s, [])

/-- A fresh PlayerConnection as built on socket open
(src/server/websocket.ts lines 565..576). -/
def freshConn (connId now : Nat) : PlayerConnection :=
  { id := connId, gameId := none, playerRole := none, isAlive := true,
    messageCount := 0, rateLimitReset := now + RATE_LIMIT_WINDOW,
    joinedAt := now, wsOpen := true }

/-- The externally triggered events that mutate the registries: socket open,
an inbound client frame (with the persistence outcomes its processing will
consume), socket close or error (both funnel into cleanupConnection), the
socket leaving the OPEN readyState ahead of its close event, and the three
periodic sweeps. -/
inductive Event where
  | connect (connId : Nat) (now : Nat)
  | clientMsg (connId : Nat) (msg : ClientMsg) (now : Nat)
      (submitOracle : Bool × Bool) (mmOracle : List (Bool × Bool)) (mmFuel : Nat)
  | disconnect (connId : Nat) (now : Nat)
  | socketClosing (connId : Nat)
  | heartbeat (now : Nat)
  | queueSweep (now : Nat)
  | roomSweep (now : Nat)
deriving DecidableEq, Repr

/-- One event processed against the shared registries.  Connection ids are
unique (generateId), so a connect for an already-registered id is a no-op. -/
def step (e : Event) (s : ServerState) : ServerState × Outbox :=
  match e with
  | .connect connId now =>
    if (findConn s connId).isSome then (s, [])
    else ({ s with connections := s.connections ++ [freshConn connId now] }, [])
  | .clientMsg connId msg now so mo f => handleMessage now s connId msg so mo f
  | .disconnect connId now => cleanupConnection now connId s
  | .socketClosing connId =>
    (match findConn s connId with
     | some c => (updateConn s { c with wsOpen := false }, [])
     | none => (s, []))
  | .heartbeat now => heartbeatSweep now s
  | .queueSweep now => queueTimeoutSweep now s
  | .roomSweep now => (roomCleanupSweep now s, [])

/-- The empty registries at server start. -/
def initState : ServerState :=
  { connections := [], matchmakingQueue := [], gameRooms := [], nextGameId := 1 }

/-- Running a sequence of events from a state. -/
def runFrom (s : ServerState) : List Event → ServerState
  | [] => s
  | e :: es => runFrom (step e s).1 es

/-- A state the event system can reach from server start. -/
def Reachable (s : ServerState) : Prop :=
  ∃ es : List Event, runFrom initState es = s

/-- Every registered room id is below the fresh-id counter (game ids are
unique keys handed out by the persistence gateway). -/
def roomsFresh (s : ServerState) : Bool :=
  s.gameRooms.all (fun r => r.gameId < s.nextGameId)

/-- Does the outbox contain an error frame with the given code addressed to
the given connection id. -/
def hasErrorCode (out : Outbox) (cid : Nat) (code : String) : Bool :=
  out.any (fun pm => pm.1 == cid &&
    match pm.2 with
    | .errorMsg _ c => c == code
    | _ => false)

/-- Registered room ids are pairwise distinct (they are unique keys of the
gameRooms Map). -/
@[reducible] def roomsNodup (s : ServerState) : Prop :=
  (s.gameRooms.map (fun r => r.gameId)).Nodup

/-- The turn/terminal fields a completed room must keep frozen: the second
room agrees with the first on currentRound, currentPlayer and completedAt and
still carries the completed status. -/
def frozenEq (room room' : GameRoom) : Prop :=
  room'.status = "completed" ∧ room'.currentRound = room.currentRound ∧
  room'.currentPlayer = room.currentPlayer ∧ room'.completedAt = room.completedAt

/-- Whatever the registry holds under id g is a frozen copy of room (or the
room is gone). -/
def Keeps (room : GameRoom) (g : Nat) (s : ServerState) : Prop :=
  ∀ room', findRoom s g = some room' → frozenEq room room'

/-- A connection bound to seat player1 of the concrete fixture room. -/
def connA : PlayerConnection :=
  { id := 1, gameId := some 10, playerRole := some .player1, isAlive := true,
    messageCount := 0, rateLimitReset := 60000, joinedAt := 0, wsOpen := true }

/-- A connection bound to seat player2 of the concrete fixture room. -/
def connB : PlayerConnection :=
  { id := 2, gameId := some 10, playerRole := some .player2, isAlive := true,
    messageCount := 0, rateLimitReset := 60000, joinedAt := 0, wsOpen := true }

/-- An active fixture room in round 1 with player1 to act. -/
def roomActive : GameRoom :=
  { gameId := 10, player1 := some 1, player2 := some 2, currentRound := 1,
    currentPlayer := .player1, totalRounds := 3, status := "active",
    completedAt := none }

/-- Fixture state: both players connected and seated in the active room. -/
def stateActive : ServerState :=
  { connections := [connA, connB], matchmakingQueue := [], gameRooms := [roomActive],
    nextGameId := 11 }

/-- Fixture room abandoned mid-game after player1 left, in the final round
with player2 holding the turn. -/
def roomAbandonedFinal : GameRoom :=
  { gameId := 10, player1 := none, player2 := some 2, currentRound := 3,
    currentPlayer := .player2, totalRounds := 3, status := "abandoned",
    completedAt := some 500 }

/-- Fixture state around roomAbandonedFinal: only player2 is still connected
and still bound to the room. -/
def stateAbandoned : ServerState :=
  { connections := [connB], matchmakingQueue := [], gameRooms := [roomAbandonedFinal],
    nextGameId := 11 }

/-- Fixture room in its final round, player2 to act, still active. -/
def roomFinal : GameRoom :=
  { roomActive with currentRound := 3, currentPlayer := .player2 }

/-- Fixture state around roomFinal. -/
def stateFinal : ServerState :=
  { stateActive with gameRooms := [roomFinal] }

/-- Two fresh unbound connections waiting in the queue (id 1 joined first). -/
def stateQueued : ServerState :=
  { connections :=
      [{ id := 1, gameId := none, playerRole := none, isAlive := true,
         messageCount := 0, rateLimitReset := 60000, joinedAt := 0, wsOpen := true },
       { id := 2, gameId := none, playerRole := none, isAlive := true,
         messageCount := 0, rateLimitReset := 60000, joinedAt := 0, wsOpen := true }],
    matchmakingQueue := [1, 2], gameRooms := [], nextGameId := 10 }

/-- Fixture state: an abandoned room whose last occupant (player2) is still
connected, one millisecond after the terminal transition. -/
def stateTerminalOne : ServerState :=
  { connections := [connB], matchmakingQueue := [],
    gameRooms := [{ roomAbandonedFinal with completedAt := some 1000 }],
    nextGameId := 11 }

/-- Fixture room that finished normally (status completed). -/
def roomDone : GameRoom :=
  { roomActive with status := "completed", completedAt := some 700 }

/-- Fixture state around roomDone with both players still bound. -/
def stateDone : ServerState :=
  { stateActive with gameRooms := [roomDone] }

/-- A freshly connected, never-messaged connection (connect time 0). -/
def connQuiet : PlayerConnection :=
  { id := 9, gameId := none, playerRole := none, isAlive := true,
    messageCount := 0, rateLimitReset := 60000, joinedAt := 0, wsOpen := true }

/-- 300 frames arriving at t = 59999 followed by one frame at t = 60001:
301 messages inside a two-millisecond span. -/
def timesBurst : List Nat := List.replicate 300 59999 ++ [60001]

/-- Event trace: two sockets connect, both join the queue; pairing succeeds in
creating the game row but the follow-up activation updateGame throws. -/
def eventsC5 : List Event :=
  [.connect 501 0, .connect 502 0,
   .clientMsg 501 .joinQueue 0 (true, true) [] 0,
   .clientMsg 502 .joinQueue 0 (true, true) [(true, false)] 5]

/-! Generic lemmas about first-match lookup under append, map and filter,
used to track a single registry entry through registry mutations. -/

theorem find_append_of_some {α} {p : α → Bool} {l l2 : List α} {a : α}
    (h : l.find? p = some a) : (l ++ l2).find? p = some a := by
  induction l with
  | nil => simp [List.find?] at h
  | cons x xs ih =>
    by_cases hx : p x = true
    · rw [List.find?_cons_of_pos _ hx] at h
      rw [List.cons_append, List.find?_cons_of_pos _ hx]
      exact h
    · rw [List.find?_cons_of_neg _ hx] at h
      rw [List.cons_append, List.find?_cons_of_neg _ hx]
      exact ih h

theorem find_append_of_none {α} {p : α → Bool} {l : List α} (l2 : List α)
    (h : l.find? p = none) : (l ++ l2).find? p = l2.find? p := by
  induction l with
  | nil => simp
  | cons x xs ih =>
    by_cases hx : p x = true
    · rw [List.find?_cons_of_pos _ hx] at h
      exact absurd h (by simp)
    · rw [List.find?_cons_of_neg _ hx] at h
      rw [List.cons_append, List.find?_cons_of_neg _ hx]
      exact ih h

theorem find_map_invar {α} {p : α → Bool} {f : α → α} (l : List α)
    (h1 : ∀ a, p (f a) = p a) (h2 : ∀ a, p a = true → f a = a) :
    (l.map f).find? p = l.find? p := by
  induction l with
  | nil => simp
  | cons x xs ih =>
    by_cases hx : p x = true
    · rw [List.map_cons, List.find?_cons_of_pos _ ((h1 x).trans hx),
          List.find?_cons_of_pos _ hx, h2 x hx]
    · have hfx : ¬ p (f x) = true := by rw [h1 x]; exact hx
      rw [List.map_cons, List.find?_cons_of_neg _ hfx, List.find?_cons_of_neg _ hx]
      exact ih

theorem find_map_replace {α} {p : α → Bool} {f : α → α} {b : α} (l : List α)
    (h1 : ∀ a, p a = true → f a = b) (h2 : ∀ a, p a = false → f a = a)
    (h3 : p b = true) (h : (l.find? p).isSome) : (l.map f).find? p = some b := by
  induction l with
  | nil => simp [List.find?] at h
  | cons x xs ih =>
    by_cases hx : p x = true
    · rw [List.map_cons, h1 x hx, List.find?_cons_of_pos _ h3]
    · have hx2 : p x = false := by
        cases hpx : p x
        · rfl
        · exact absurd hpx hx
      rw [List.find?_cons_of_neg _ hx] at h
      rw [List.map_cons, h2 x hx2, List.find?_cons_of_neg _ hx]
      exact ih h

theorem find_filter_of_some {α} {p q : α → Bool} {l : List α} {a : α}
    (h : l.find? p = some a) (hq : q a = true) : (l.filter q).find? p = some a := by
  induction l with
  | nil => simp [List.find?] at h
  | cons x xs ih =>
    by_cases hx : p x = true
    · rw [List.find?_cons_of_pos _ hx] at h
      cases h
      rw [List.filter_cons, if_pos hq, List.find?_cons_of_pos _ hx]
    · rw [List.find?_cons_of_neg _ hx] at h
      rw [List.filter_cons]
      by_cases hqx : q x = true
      · rw [if_pos hqx, List.find?_cons_of_neg _ hx]
        exact ih h
      · rw [if_neg hqx]
        exact ih h

theorem find_filter_none {α} {p q : α → Bool} (l : List α)
    (h : ∀ a, q a = true → p a = false) : (l.filter q).find? p = none := by
  rw [List.find?_eq_none]
  intro x hx
  have hqx : q x = true := List.of_mem_filter hx
  simp [h x hqx]

theorem find_filter_sub {α} {p q : α → Bool} (l : List α)
    (h : ∀ a, p a = true → q a = true) : (l.filter q).find? p = l.find? p := by
  induction l with
  | nil => simp
  | cons x xs ih =>
    by_cases hx : p x = true
    · rw [List.filter_cons, if_pos (h x hx), List.find?_cons_of_pos _ hx,
          List.find?_cons_of_pos _ hx]
    · rw [List.find?_cons_of_neg _ hx, List.filter_cons]
      by_cases hqx : q x = true
      · rw [if_pos hqx, List.find?_cons_of_neg _ hx]
        exact ih
      · rw [if_neg hqx]
        exact ih

theorem find_filter_stable {l : List GameRoom} {q : GameRoom → Bool} {g : Nat}
    {room : GameRoom} (hnd : (l.map (fun r => r.gameId)).Nodup)
    (h : l.find? (fun r => r.gameId == g) = some room) :
    (l.filter q).find? (fun r => r.gameId == g) = none ∨
    (l.filter q).find? (fun r => r.gameId == g) = some room := by
  induction l with
  | nil => simp [List.find?] at h
  | cons x xs ih =>
    rw [List.map_cons, List.nodup_cons] at hnd
    by_cases hx : (x.gameId == g) = true
    · rw [List.find?_cons_of_pos (p := fun r : GameRoom => r.gameId == g) xs hx] at h
      injection h with h2
      subst h2
      rw [List.filter_cons]
      by_cases hqx : q x = true
      · rw [if_pos hqx,
          List.find?_cons_of_pos (p := fun r : GameRoom => r.gameId == g) (xs.filter q) hx]
        exact Or.inr rfl
      · rw [if_neg hqx]
        left
        rw [List.find?_eq_none]
        intro y hy hpy
        have hyg : y.gameId = g := by simpa using hpy
        have hxg : x.gameId = g := by simpa using hx
        have hymem : y ∈ xs := List.mem_of_mem_filter hy
        exact hnd.1 (by
          have hmm : y.gameId ∈ xs.map (fun r => r.gameId) :=
            List.mem_map_of_mem _ hymem
          rw [hyg, ← hxg] at hmm
          exact hmm)
    · rw [List.find?_cons_of_neg (p := fun r : GameRoom => r.gameId == g) xs hx] at h
      rw [List.filter_cons]
      by_cases hqx : q x = true
      · rw [if_pos hqx,
          List.find?_cons_of_neg (p := fun r : GameRoom => r.gameId == g) (xs.filter q) hx]
        exact ih hnd.2 h
      · rw [if_neg hqx]
        exact ih hnd.2 h

/-! Projection lemmas: operations touching one registry leave the others as
they were. -/

theorem findRoom_updateConn (s : ServerState) (c : PlayerConnection) (g : Nat) :
    findRoom (updateConn s c) g = findRoom s g := rfl

theorem findRoom_deleteConn (s : ServerState) (cid g : Nat) :
    findRoom (deleteConn s cid) g = findRoom s g := rfl

theorem findRoom_bindConn (s : ServerState) (cid : Nat) (og : Option Nat)
    (orole : Option Role) (g : Nat) : findRoom (bindConn s cid og orole) g = findRoom s g := rfl

theorem queue_updateConn (s : ServerState) (c : PlayerConnection) :
    (updateConn s c).matchmakingQueue = s.matchmakingQueue := rfl

theorem queue_deleteConn (s : ServerState) (cid : Nat) :
    (deleteConn s cid).matchmakingQueue = s.matchmakingQueue := rfl

theorem queue_bindConn (s : ServerState) (cid : Nat) (og : Option Nat) (orole : Option Role) :
    (bindConn s cid og orole).matchmakingQueue = s.matchmakingQueue := rfl

theorem queue_setRoom (s : ServerState) (r : GameRoom) :
    (setRoom s r).matchmakingQueue = s.matchmakingQueue := rfl

theorem queue_deleteRoom (s : ServerState) (g : Nat) :
    (deleteRoom s g).matchmakingQueue = s.matchmakingQueue := rfl

theorem queue_putRoom (s : ServerState) (r : GameRoom) :
    (putRoom s r).matchmakingQueue = s.matchmakingQueue := by
  unfold putRoom
  split <;> rfl

theorem setSeat_gameId (r : GameRoom) (role : Role) (v : Option Nat) :
    (r.setSeat role v).gameId = r.gameId := by cases role <;> rfl

theorem setSeat_status (r : GameRoom) (role : Role) (v : Option Nat) :
    (r.setSeat role v).status = r.status := by cases role <;> rfl

theorem setSeat_currentRound (r : GameRoom) (role : Role) (v : Option Nat) :
    (r.setSeat role v).currentRound = r.currentRound := by cases role <;> rfl

theorem setSeat_currentPlayer (r : GameRoom) (role : Role) (v : Option Nat) :
    (r.setSeat role v).currentPlayer = r.currentPlayer := by cases role <;> rfl

theorem setSeat_completedAt (r : GameRoom) (role : Role) (v : Option Nat) :
    (r.setSeat role v).completedAt = r.completedAt := by cases role <;> rfl

/-! Counterexamples refuting the claims as frozen, each at one explicit
concrete input, followed (further below) by the amended statements that do
hold of the code. -/

/-- C1 counterexample: in the reachable fixture stateAbandoned the room is in
the terminal status "abandoned", yet a submit_turn from the seat holding the
turn is not rejected with GAME_COMPLETED; it is accepted, the room state
mutates, and the status even transitions abandoned → completed (with
completedAt overwritten), contradicting the claim that every subsequent
submit_turn on a terminal room is rejected and that no transition leaves the
terminal statuses. -/
theorem C1_counterexample :
    hasErrorCode (handleSubmitTurn 600 stateAbandoned connB 7 true true).2
        connB.id "GAME_COMPLETED" = false ∧
    (handleSubmitTurn 600 stateAbandoned connB 7 true true).1 ≠ stateAbandoned ∧
    (findRoom (handleSubmitTurn 600 stateAbandoned connB 7 true true).1 10).map
        GameRoom.status = some "completed" ∧
    (findRoom (handleSubmitTurn 600 stateAbandoned connB 7 true true).1 10).map
        GameRoom.completedAt = some (some 600) := by
  decide

/-- C2 counterexample: createTurn succeeds but the follow-up updateGame throws;
the attempt ends with SUBMIT_FAILED, yet currentSeat has moved from player1 to
player2 — the in-memory state is not rolled back to its pre-attempt shape. -/
theorem C2_counterexample :
    hasErrorCode (handleSubmitTurn 100 stateActive connA 5 true false).2
        connA.id "SUBMIT_FAILED" = true ∧
    (findRoom stateActive 10).map GameRoom.currentPlayer = some Role.player1 ∧
    (findRoom (handleSubmitTurn 100 stateActive connA 5 true false).1 10).map
        GameRoom.currentPlayer = some Role.player2 ∧
    (handleSubmitTurn 100 stateActive connA 5 true false).1 ≠ stateActive := by
  decide

/-- C3 counterexample: from queue [1, 2] (1 is the older entry) a pairing
cycle whose first createGame fails re-inserts the ids as [2, 1] — the younger
ahead of the older, not the original relative order — and the loop then KEEPS
pairing in the same cycle: the second attempt succeeds and seats id 2 as
player1 and id 1 as player2, so pairing did not stop after the failure. -/
theorem C3_counterexample :
    (findRoom (attemptMatchmaking 0 5 [(false, true), (true, true)] stateQueued).1 10).map
        GameRoom.player1 = some (some 2) ∧
    (findRoom (attemptMatchmaking 0 5 [(false, true), (true, true)] stateQueued).1 10).map
        GameRoom.player2 = some (some 1) ∧
    (attemptMatchmaking 0 5 [(false, true), (true, true)] stateQueued).1.matchmakingQueue
        = [] := by
  decide

/-- C4 counterexample: in the final round (currentRound = totalRounds = 3) the
second accepted submission of the round does not advance currentRound by one;
the round stays 3 and the room completes instead. -/
theorem C4_counterexample :
    (findRoom (handleSubmitTurn 900 stateFinal connB 7 true true).1 10).map
        GameRoom.currentRound = some 3 ∧
    ¬ (findRoom (handleSubmitTurn 900 stateFinal connB 7 true true).1 10).map
        GameRoom.currentRound = some 4 ∧
    (findRoom (handleSubmitTurn 900 stateFinal connB 7 true true).1 10).map
        GameRoom.status = some "completed" := by
  decide

/-- C5 counterexample: the event trace eventsC5 (two sockets join the queue;
pairing creates the game row but the activation updateGame throws, so the
catch block re-queues both ids after they were already bound to the room)
reaches a state in which connection 501 is bound to game 1 and simultaneously
present in the matchmaking queue. -/
theorem C5_counterexample :
    Reachable (runFrom initState eventsC5) ∧
    (runFrom initState eventsC5).matchmakingQueue.contains 501 = true ∧
    (findConn (runFrom initState eventsC5) 501).bind PlayerConnection.gameId
        = some 1 := by
  refine ⟨⟨eventsC5, rfl⟩, by decide, by decide⟩

/-- C6 counterexample: a draw_clear from the room-bound seat that does not
hold the turn is not dropped silently — the server sends a NOT_YOUR_TURN
error frame back to the sender. -/
theorem C6_counterexample :
    (handleMessage 100 stateActive 2 ClientMsg.drawClear (true, true) [] 0).2
      = [(2, ServerMsg.errorMsg "Not your turn" "NOT_YOUR_TURN")] := by
  decide

set_option maxRecDepth 8000 in
/-- C7 counterexample: 301 messages arriving within a two-millisecond span
(all inside one rolling 60-second window) are ALL accepted by the limiter,
because the code implements a fixed window anchored at rateLimitReset, not a
rolling one: the 300 frames at t = 59999 fill the first window and the frame
at t = 60001 starts a fresh window with a reset counter. -/
theorem C7_counterexample :
    (runRateLimiter connQuiet timesBurst).all (fun b => b == false) = true ∧
    timesBurst.length = 301 ∧
    timesBurst.all (fun t => 59999 ≤ t && t < 59999 + RATE_LIMIT_WINDOW) = true := by
  decide

/-- C8 counterexample: when the last occupant of a terminal room disconnects,
cleanupConnection removes the room from the registry immediately — here one
millisecond after completedAt, far inside the 120-second grace window, and not
via the cleanup sweep. -/
theorem C8_counterexample :
    (findRoom stateTerminalOne 10).map GameRoom.completedAt = some (some 1000) ∧
    findRoom (step (Event.disconnect 2 1001) stateTerminalOne).1 10 = none ∧
    1001 - 1000 < ROOM_CLEANUP_DELAY := by
  decide

/-- C9 counterexample: the pre-await validation of a submit_turn from player1
passes on stateActive; during the await the opponent disconnects, leaving the
room abandoned; the resumed continuation nevertheless commits the transition
over the altered room — it flips currentSeat to player2 and even broadcasts a
game_state frame claiming status "active" — instead of re-validating and
aborting. -/
theorem C9_counterexample :
    submitPhase1 stateActive connA = SubmitCheck.proceed 10 Role.player1 ∧
    (findRoom (cleanupConnection 500 2 stateActive).1 10).map GameRoom.status
        = some "abandoned" ∧
    (findRoom (submitResume 600 (cleanupConnection 500 2 stateActive).1
        1 10 Role.player1 7 true).1 10).map GameRoom.currentPlayer
        = some Role.player2 ∧
    (submitResume 600 (cleanupConnection 500 2 stateActive).1
        1 10 Role.player1 7 true).1 ≠ (cleanupConnection 500 2 stateActive).1 ∧
    (submitResume 600 (cleanupConnection 500 2 stateActive).1
        1 10 Role.player1 7 true).2.contains
        (1, ServerMsg.gameState 10 1 Role.player2 3 "active") = true := by
  decide

/-! Support lemmas about registry lookups after room mutations, and about the
shape of the submit handler. -/

theorem findRoom_gameId {s : ServerState} {g : Nat} {room : GameRoom}
    (h : findRoom s g = some room) : room.gameId = g := by
  have hp := List.find?_some h
  simpa using hp

theorem findRoom_withQueue (s : ServerState) (q : List Nat) (g : Nat) :
    findRoom { s with matchmakingQueue := q } g = findRoom s g := rfl

theorem findConn_withQueue (s : ServerState) (q : List Nat) (cid : Nat) :
    findConn { s with matchmakingQueue := q } cid = findConn s cid := rfl

theorem findConn_setRoom (s : ServerState) (r : GameRoom) (cid : Nat) :
    findConn (setRoom s r) cid = findConn s cid := rfl

theorem findConn_deleteRoom (s : ServerState) (g cid : Nat) :
    findConn (deleteRoom s g) cid = findConn s cid := rfl

theorem findConn_putRoom (s : ServerState) (r : GameRoom) (cid : Nat) :
    findConn (putRoom s r) cid = findConn s cid := by
  unfold putRoom
  split <;> rfl

theorem findRoom_setRoom_of_found {s : ServerState} {g : Nat} {room : GameRoom}
    (r : GameRoom) (h : findRoom s g = some room) (hid : r.gameId = g) :
    findRoom (setRoom s r) g = some r := by
  unfold findRoom at h
  unfold findRoom setRoom
  show (s.gameRooms.map fun q => if q.gameId == r.gameId then r else q).find?
      (fun q => q.gameId == g) = some r
  apply find_map_replace
  · intro a ha
    have hag : a.gameId = g := by simpa using ha
    simp [hag, hid]
  · intro a ha
    have hag : ¬ a.gameId = g := by simpa using ha
    have hne : (a.gameId == r.gameId) = false := by
      rw [hid]
      simpa using hag
    simp [hne]
  · simp [hid]
  · simp [h]

theorem findRoom_setRoom_other {s : ServerState} {g : Nat} (r : GameRoom)
    (hid : r.gameId ≠ g) : findRoom (setRoom s r) g = findRoom s g := by
  unfold findRoom setRoom
  show (s.gameRooms.map fun q => if q.gameId == r.gameId then r else q).find?
      (fun q => q.gameId == g) = s.gameRooms.find? (fun q => q.gameId == g)
  apply find_map_invar
  · intro a
    by_cases hc : (a.gameId == r.gameId) = true
    · have hac : a.gameId = r.gameId := by simpa using hc
      simp [hc, hac]
    · simp [hc]
  · intro a ha
    have hag : a.gameId = g := by simpa using ha
    have hne : (a.gameId == r.gameId) = false := by
      rw [hag]
      simp
      intro hh
      exact hid hh.symm
    simp [hne]

theorem findRoom_deleteRoom_self (s : ServerState) (g : Nat) :
    findRoom (deleteRoom s g) g = none := by
  unfold findRoom deleteRoom
  show (s.gameRooms.filter fun r => r.gameId != g).find? (fun r => r.gameId == g) = none
  apply find_filter_none
  intro a ha
  have hag : a.gameId ≠ g := by simpa using ha
  simpa using hag

theorem findRoom_deleteRoom_other {s : ServerState} {gd g : Nat} (hne : gd ≠ g) :
    findRoom (deleteRoom s gd) g = findRoom s g := by
  unfold findRoom deleteRoom
  show (s.gameRooms.filter fun r => r.gameId != gd).find? (fun r => r.gameId == g)
      = s.gameRooms.find? (fun r => r.gameId == g)
  apply find_filter_sub
  intro a ha
  have hag : a.gameId = g := by simpa using ha
  rw [hag]
  simpa using fun hh => hne hh.symm

theorem submitPhase1_proceed {s : ServerState} {conn : PlayerConnection} {g : Nat}
    {role : Role} {room : GameRoom} (hg : conn.gameId = some g)
    (hr : conn.playerRole = some role) (hroom : findRoom s g = some room)
    (hst : room.status ≠ "completed") (hcp : room.currentPlayer = role) :
    submitPhase1 s conn = .proceed g role := by
  unfold submitPhase1
  rw [hg, hr]
  simp [hroom, hst, hcp]

theorem submitPhase1_rejected_on_completed {s : ServerState} {conn : PlayerConnection}
    {g : Nat} {role : Role} {room : GameRoom} (hg : conn.gameId = some g)
    (hr : conn.playerRole = some role) (hroom : findRoom s g = some room)
    (hst : room.status = "completed") :
    submitPhase1 s conn =
      .rejected [(conn.id, .errorMsg "Game is already completed" "GAME_COMPLETED")] := by
  unfold submitPhase1
  rw [hg, hr]
  simp [hroom, hst]

theorem submitPhase1_not_your_turn {s : ServerState} {conn : PlayerConnection}
    {g : Nat} {role : Role} {room : GameRoom} (hg : conn.gameId = some g)
    (hr : conn.playerRole = some role) (hroom : findRoom s g = some room)
    (hst : room.status ≠ "completed") (hcp : room.currentPlayer ≠ role) :
    submitPhase1 s conn =
      .rejected [(conn.id, .errorMsg "Not your turn" "NOT_YOUR_TURN")] := by
  unfold submitPhase1
  rw [hg, hr]
  simp [hroom, hst, hcp]

theorem submitPhase1_proceed_inv {s : ServerState} {conn : PlayerConnection}
    {g : Nat} {role : Role} (h : submitPhase1 s conn = .proceed g role) :
    conn.gameId = some g ∧ conn.playerRole = some role ∧
    ∃ room, findRoom s g = some room ∧ room.status ≠ "completed" ∧
      room.currentPlayer = role := by
  cases hg : conn.gameId with
  | none =>
    unfold submitPhase1 at h
    rw [hg] at h
    simp at h
  | some g0 =>
    cases hr : conn.playerRole with
    | none =>
      unfold submitPhase1 at h
      rw [hg, hr] at h
      simp at h
    | some role0 =>
      unfold submitPhase1 at h
      rw [hg, hr] at h
      cases hroom : findRoom s g0 with
      | none => simp [hroom] at h
      | some room0 =>
        by_cases hst : room0.status = "completed"
        · simp [hroom, hst] at h
        · by_cases hcp : room0.currentPlayer = role0
          · simp [hroom, hst, hcp] at h
            obtain ⟨hgg, hrr⟩ := h
            subst hgg
            subst hrr
            exact ⟨rfl, rfl, room0, hroom, hst, hcp⟩
          · simp [hroom, hst, hcp] at h

theorem submitResume_commit (now : Nat) (s : ServerState) (sid g : Nat) (role : Role)
    (strokes : Nat) (uOk : Bool) {room : GameRoom} (hroom : findRoom s g = some room) :
    (submitResume now s sid g role strokes uOk).1 = setRoom s (
      if room.currentPlayer = Role.player2 then
        (if room.currentRound ≥ room.totalRounds then
          { room with
            status := "completed", completedAt := some now, currentPlayer := Role.player1 }
         else { room with
            currentRound := room.currentRound + 1, currentPlayer := Role.player1 })
      else { room with currentPlayer := Role.player2 }) := by
  unfold submitResume
  rw [hroom]
  cases uOk <;>
    by_cases h2 : room.currentPlayer = Role.player2 <;>
      by_cases h3 : room.currentRound ≥ room.totalRounds <;>
        simp [h2, h3]

theorem submitResume_state_indep (now : Nat) (s : ServerState) (sid g : Nat)
    (role : Role) (strokes : Nat) (u1 u2 : Bool) :
    (submitResume now s sid g role strokes u1).1
      = (submitResume now s sid g role strokes u2).1 := by
  unfold submitResume
  cases findRoom s g with
  | none => rfl
  | some room =>
    cases u1 <;> cases u2 <;>
      by_cases h2 : room.currentPlayer = Role.player2 <;>
        by_cases h3 : room.currentRound ≥ room.totalRounds <;>
          simp [h2, h3]

theorem submitResume_fail_reports (now : Nat) (s : ServerState) (sid g : Nat)
    (role : Role) (strokes : Nat) {room : GameRoom} (hroom : findRoom s g = some room) :
    hasErrorCode (submitResume now s sid g role strokes false).2 sid
      "SUBMIT_FAILED" = true := by
  unfold submitResume
  rw [hroom]
  by_cases h2 : room.currentPlayer = Role.player2 <;>
    by_cases h3 : room.currentRound ≥ room.totalRounds <;>
      simp [h2, h3, hasErrorCode]

/-- C2 (amended): the in-memory state is rolled back only because nothing was
mutated yet — when the awaited createTurn call fails, SUBMIT_FAILED is sent
and the whole server state is exactly its pre-attempt value; but when a later
updateGame call fails, SUBMIT_FAILED is sent while the already-applied
in-memory turn transition is kept: the post-attempt state equals the state of
a fully successful submission, not the pre-attempt state. -/
theorem C2_amended :
    (∀ now s conn strokes uOk,
      (handleSubmitTurn now s conn strokes false uOk).1 = s) ∧
    (∀ now s conn strokes,
      (handleSubmitTurn now s conn strokes true false).1
        = (handleSubmitTurn now s conn strokes true true).1) ∧
    (∀ now s (conn : PlayerConnection) g role room strokes,
      conn.gameId = some g → conn.playerRole = some role →
      findRoom s g = some room → room.status ≠ "completed" →
      room.currentPlayer = role →
      hasErrorCode (handleSubmitTurn now s conn strokes false true).2 conn.id
          "SUBMIT_FAILED" = true ∧
      hasErrorCode (handleSubmitTurn now s conn strokes true false).2 conn.id
          "SUBMIT_FAILED" = true) := by
  refine ⟨?_, ?_, ?_⟩
  · intro now s conn strokes uOk
    unfold handleSubmitTurn
    cases submitPhase1 s conn <;> simp
  · intro now s conn strokes
    unfold handleSubmitTurn
    cases submitPhase1 s conn with
    | rejected out => rfl
    | proceed g role =>
      simp only [if_pos]
      exact submitResume_state_indep now s conn.id g role strokes false true
  · intro now s conn g role room strokes hg hr hroom hst hcp
    constructor
    · unfold handleSubmitTurn
      rw [submitPhase1_proceed hg hr hroom hst hcp]
      simp [hasErrorCode]
    · unfold handleSubmitTurn
      rw [submitPhase1_proceed hg hr hroom hst hcp]
      simpa using submitResume_fail_reports now s conn.id g role strokes hroom

/-- C2 witness: the amended statement evaluated on the concrete active fixture
room with player1 submitting. -/
theorem C2_amended_witness :
    (handleSubmitTurn 100 stateActive connA 5 false true).1 = stateActive ∧
    (handleSubmitTurn 100 stateActive connA 5 true false).1
      = (handleSubmitTurn 100 stateActive connA 5 true true).1 ∧
    hasErrorCode (handleSubmitTurn 100 stateActive connA 5 true false).2 connA.id
      "SUBMIT_FAILED" = true :=
  ⟨C2_amended.1 100 stateActive connA 5 true,
   C2_amended.2.1 100 stateActive connA 5,
   (C2_amended.2.2 100 stateActive connA 10 Role.player1 roomActive 5 (by decide)
      (by decide) (by decide) (by decide) (by decide)).2⟩

/-- C4 (amended): in an active room an accepted submit_turn from player1
(the first submission of the round) flips currentSeat to player2; an accepted
submit_turn from player2 flips it back to player1 and advances currentRound by
one when currentRound < totalRounds, while on the final round
(currentRound ≥ totalRounds) the round does not advance — the room instead
transitions to completed with currentRound unchanged; and a submit_turn from
the seat not holding the turn (including a seat that already submitted this
round) is rejected with NOT_YOUR_TURN and changes no state at all, however
many such submissions occur. -/
theorem C4_amended :
    (∀ now s (conn : PlayerConnection) g room strokes uOk,
       conn.gameId = some g → conn.playerRole = some Role.player1 →
       findRoom s g = some room → room.status ≠ "completed" →
       room.currentPlayer = Role.player1 →
       findRoom (handleSubmitTurn now s conn strokes true uOk).1 g
         = some { room with currentPlayer := Role.player2 }) ∧
    (∀ now s (conn : PlayerConnection) g room strokes uOk,
       conn.gameId = some g → conn.playerRole = some Role.player2 →
       findRoom s g = some room → room.status ≠ "completed" →
       room.currentPlayer = Role.player2 → room.currentRound < room.totalRounds →
       findRoom (handleSubmitTurn now s conn strokes true uOk).1 g
         = some { room with
             currentRound := room.currentRound + 1, currentPlayer := Role.player1 }) ∧
    (∀ now s (conn : PlayerConnection) g room strokes uOk,
       conn.gameId = some g → conn.playerRole = some Role.player2 →
       findRoom s g = some room → room.status ≠ "completed" →
       room.currentPlayer = Role.player2 → room.currentRound ≥ room.totalRounds →
       findRoom (handleSubmitTurn now s conn strokes true uOk).1 g
         = some { room with
             status := "completed", completedAt := some now,
             currentPlayer := Role.player1 }) ∧
    (∀ now s (conn : PlayerConnection) g role room strokes cOk uOk,
       conn.gameId = some g → conn.playerRole = some role →
       findRoom s g = some room → room.status ≠ "completed" →
       room.currentPlayer ≠ role →
       handleSubmitTurn now s conn strokes cOk uOk
         = (s, [(conn.id, ServerMsg.errorMsg "Not your turn" "NOT_YOUR_TURN")])) := by
  refine ⟨?_, ?_, ?_, ?_⟩
  · intro now s conn g room strokes uOk hg hr hroom hst hcp
    unfold handleSubmitTurn
    rw [submitPhase1_proceed hg hr hroom hst hcp]
    simp only [if_pos]
    rw [submitResume_commit now s conn.id g Role.player1 strokes uOk hroom]
    rw [hcp]
    rw [if_neg (by decide : ¬ (Role.player1 = Role.player2))]
    exact findRoom_setRoom_of_found _ hroom (by simpa using findRoom_gameId hroom)
  · intro now s conn g room strokes uOk hg hr hroom hst hcp hlt
    unfold handleSubmitTurn
    rw [submitPhase1_proceed hg hr hroom hst hcp]
    simp only [if_pos]
    rw [submitResume_commit now s conn.id g Role.player2 strokes uOk hroom]
    rw [hcp]
    rw [if_pos rfl, if_neg (by omega)]
    exact findRoom_setRoom_of_found _ hroom (by simpa using findRoom_gameId hroom)
  · intro now s conn g room strokes uOk hg hr hroom hst hcp hge
    unfold handleSubmitTurn
    rw [submitPhase1_proceed hg hr hroom hst hcp]
    simp only [if_pos]
    rw [submitResume_commit now s conn.id g Role.player2 strokes uOk hroom]
    rw [hcp]
    rw [if_pos rfl, if_pos hge]
    exact findRoom_setRoom_of_found _ hroom (by simpa using findRoom_gameId hroom)
  · intro now s conn g role room strokes cOk uOk hg hr hroom hst hcp
    unfold handleSubmitTurn
    rw [submitPhase1_not_your_turn hg hr hroom hst (fun hh => hcp hh)]

/-- C4 witness: the amended statement evaluated on the concrete fixtures —
player1 first-submission flip, and an out-of-turn rejection from player2. -/
theorem C4_amended_witness :
    findRoom (handleSubmitTurn 100 stateActive connA 5 true true).1 10
      = some { roomActive with currentPlayer := Role.player2 } ∧
    handleSubmitTurn 100 stateActive connB 5 true true
      = (stateActive, [(connB.id, ServerMsg.errorMsg "Not your turn" "NOT_YOUR_TURN")]) :=
  ⟨C4_amended.1 100 stateActive connA 10 roomActive 5 true (by decide) (by decide)
      (by decide) (by decide) (by decide),
   C4_amended.2.2.2 100 stateActive connB 10 Role.player2 roomActive 5 true true
      (by decide) (by decide) (by decide) (by decide) (by decide)⟩

/-- C9 (amended): the handlers validate only BEFORE their first persistence
await; the resumed continuation of handleSubmitTurn re-reads the room and
commits the turn transition unconditionally — for every room value found at
resumption time, whatever its status (including a room abandoned by a
concurrent disconnect during the await), the seat flip / round advance /
completion mutation is applied with no re-validation and no abort path. -/
theorem C9_amended :
    ∀ now s (sid g : Nat) (role : Role) (strokes : Nat) (uOk : Bool) room,
      findRoom s g = some room →
      findRoom (submitResume now s sid g role strokes uOk).1 g
        = some (
          if room.currentPlayer = Role.player2 then
            (if room.currentRound ≥ room.totalRounds then
              { room with
                status := "completed", completedAt := some now,
                currentPlayer := Role.player1 }
             else { room with
                currentRound := room.currentRound + 1,
                currentPlayer := Role.player1 })
          else { room with currentPlayer := Role.player2 }) := by
  intro now s sid g role strokes uOk room hroom
  rw [submitResume_commit now s sid g role strokes uOk hroom]
  apply findRoom_setRoom_of_found _ hroom
  have hid : room.gameId = g := findRoom_gameId hroom
  by_cases h2 : room.currentPlayer = Role.player2 <;>
    by_cases h3 : room.currentRound ≥ room.totalRounds <;>
      simp [h2, h3, hid]

/-- C9 witness: the amended no-revalidation statement evaluated at the point
of the C9 scenario — the room altered to abandoned during the await is still
committed over. -/
theorem C9_amended_witness :
    findRoom (submitResume 600 (cleanupConnection 500 2 stateActive).1
        1 10 Role.player1 7 true).1 10
      = some { gameId := 10, player1 := some 1, player2 := none, currentRound := 1,
               currentPlayer := Role.player2, totalRounds := 3,
               status := "abandoned", completedAt := some 500 } := by
  have h := C9_amended 600 (cleanupConnection 500 2 stateActive).1 1 10 Role.player1 7
    true { gameId := 10, player1 := some 1, player2 := none, currentRound := 1,
           currentPlayer := Role.player1, totalRounds := 3,
           status := "abandoned", completedAt := some 500 } (by decide)
  simpa using h

theorem keeps_of_rooms_eq {room : GameRoom} {g : Nat} {s s' : ServerState}
    (h : s'.gameRooms = s.gameRooms) (hK : Keeps room g s) : Keeps room g s' := by
  intro room' h'
  apply hK
  unfold findRoom at h' ⊢
  rw [← h]
  exact h'

theorem keeps_base {s : ServerState} {room : GameRoom} {g : Nat}
    (hroom : findRoom s g = some room) (hst : room.status = "completed") :
    Keeps room g s := by
  intro room' h'
  rw [hroom] at h'
  injection h' with h2
  subst h2
  exact ⟨hst, rfl, rfl, rfl⟩

theorem keeps_deleteRoom {room : GameRoom} {g : Nat} {s : ServerState} (gd : Nat)
    (hK : Keeps room g s) : Keeps room g (deleteRoom s gd) := by
  intro room' h'
  by_cases hgg : gd = g
  · subst hgg
    rw [findRoom_deleteRoom_self] at h'
    cases h'
  · rw [findRoom_deleteRoom_other hgg] at h'
    exact hK room' h'

theorem keeps_setRoom {room : GameRoom} {g : Nat} {s : ServerState} {r : GameRoom}
    (hK : Keeps room g s) (hcond : r.gameId = g → frozenEq room r) :
    Keeps room g (setRoom s r) := by
  intro room' h'
  by_cases hgg : r.gameId = g
  · cases hsg : findRoom s g with
    | none =>
      exfalso
      unfold findRoom at hsg
      unfold findRoom setRoom at h'
      rw [List.find?_eq_none] at hsg
      have hmem := List.mem_of_find?_eq_some h'
      have hp := List.find?_some h'
      rcases List.mem_map.mp hmem with ⟨a, ha, hfa⟩
      by_cases hca : (a.gameId == r.gameId) = true
      · have hag : a.gameId = g := by
          have hav : a.gameId = r.gameId := by simpa using hca
          rw [hav, hgg]
        exact hsg a ha (by simpa using hag)
      · rw [if_neg hca] at hfa
        subst hfa
        exact hsg a ha hp
    | some room0 =>
      rw [findRoom_setRoom_of_found r hsg hgg] at h'
      injection h' with h2
      subst h2
      exact hcond hgg
  · rw [findRoom_setRoom_other r hgg] at h'
    exact hK room' h'

theorem keeps_deleteConn {room : GameRoom} {g : Nat} {s : ServerState} (cid : Nat)
    (hK : Keeps room g s) : Keeps room g (deleteConn s cid) :=
  keeps_of_rooms_eq rfl hK

theorem keeps_updateConn {room : GameRoom} {g : Nat} {s : ServerState}
    (c : PlayerConnection) (hK : Keeps room g s) : Keeps room g (updateConn s c) :=
  keeps_of_rooms_eq rfl hK

theorem keeps_bindConn {room : GameRoom} {g : Nat} {s : ServerState} (cid : Nat)
    (og : Option Nat) (orole : Option Role) (hK : Keeps room g s) :
    Keeps room g (bindConn s cid og orole) :=
  keeps_of_rooms_eq rfl hK

theorem keeps_withQueue {room : GameRoom} {g : Nat} {s : ServerState} (q : List Nat)
    (hK : Keeps room g s) : Keeps room g { s with matchmakingQueue := q } :=
  keeps_of_rooms_eq rfl hK

theorem cleanup_keeps {room : GameRoom} {g : Nat} (now cid : Nat) {s : ServerState}
    (hK : Keeps room g s) : Keeps room g (cleanupConnection now cid s).1 := by
  unfold cleanupConnection
  split
  · exact hK
  · rename_i conn hfc
    split
    · rename_i gd role hcg hcr
      dsimp only
      split
      · rename_i room0 hfr
        dsimp only
        split
        · rename_i hstc
          split
          · exact keeps_deleteConn cid (keeps_deleteRoom gd (keeps_withQueue _ hK))
          · rename_i hb
            apply keeps_deleteConn cid
            apply keeps_setRoom (keeps_withQueue _ hK)
            intro hgg
            exfalso
            have hg0 : (room0.setSeat role none).gameId = g := hgg
            rw [setSeat_gameId] at hg0
            have h0gd : room0.gameId = gd := findRoom_gameId hfr
            have hfr0 : findRoom s g = some room0 := by
              rw [← hg0, h0gd]
              exact hfr
            have hfe := hK room0 hfr0
            rw [setSeat_status, hfe.1] at hstc
            simp at hstc
        · rename_i hstc
          split
          · exact keeps_deleteConn cid (keeps_deleteRoom gd (keeps_withQueue _ hK))
          · rename_i hb
            apply keeps_deleteConn cid
            apply keeps_setRoom (keeps_withQueue _ hK)
            intro hgg
            have hg0 : room0.gameId = g := by
              rw [← setSeat_gameId room0 role none]
              exact hgg
            have h0gd : room0.gameId = gd := findRoom_gameId hfr
            have hfr0 : findRoom s g = some room0 := by
              rw [← hg0, h0gd]
              exact hfr
            have hfe := hK room0 hfr0
            exact ⟨by rw [setSeat_status]; exact hfe.1,
                   by rw [setSeat_currentRound]; exact hfe.2.1,
                   by rw [setSeat_currentPlayer]; exact hfe.2.2.1,
                   by rw [setSeat_completedAt]; exact hfe.2.2.2⟩
      · exact keeps_deleteConn cid (keeps_withQueue _ hK)
    · exact keeps_deleteConn cid (keeps_withQueue _ hK)

theorem roomsFresh_iff {s : ServerState} :
    roomsFresh s = true ↔ ∀ r ∈ s.gameRooms, r.gameId < s.nextGameId := by
  unfold roomsFresh
  rw [List.all_eq_true]
  constructor
  · intro h r hr
    simpa using h r hr
  · intro h r hr
    simpa using h r hr

theorem findRoom_of_fresh {s : ServerState} (h : roomsFresh s = true) :
    findRoom s s.nextGameId = none := by
  unfold findRoom
  rw [List.find?_eq_none]
  intro r hr hp
  have hlt := roomsFresh_iff.mp h r hr
  have heq : r.gameId = s.nextGameId := by simpa using hp
  omega

theorem mm_preserves {room : GameRoom} {g : Nat} (now : Nat) (fuel : Nat) :
    ∀ (oracle : List (Bool × Bool)) (s : ServerState),
    roomsFresh s = true → findRoom s g = some room →
    roomsFresh (attemptMatchmaking now fuel oracle s).1 = true ∧
    findRoom (attemptMatchmaking now fuel oracle s).1 g = some room := by
  induction fuel with
  | zero =>
    intro oracle s hfresh hroom
    exact ⟨hfresh, hroom⟩
  | succ fuel ih =>
    intro oracle s hfresh hroom
    rw [attemptMatchmaking]
    split
    · rename_i p1Id p2Id rest hq
      dsimp only
      split
      · split
        · exact ih oracle _ hfresh hroom
        · exact ih oracle _ hfresh hroom
      · split
        · exact ih oracle _ hfresh hroom
        · split
          · exact ⟨hfresh, hroom⟩
          · rename_i hpair
            split
            · have hnone : findRoom
                  { connections := s.connections, matchmakingQueue := rest,
                    gameRooms := s.gameRooms, nextGameId := s.nextGameId + 1 }
                  s.nextGameId = none :=
                findRoom_of_fresh hfresh
              have hput : putRoom
                  { connections := s.connections, matchmakingQueue := rest,
                    gameRooms := s.gameRooms, nextGameId := s.nextGameId + 1 }
                  { gameId := s.nextGameId, player1 := some p1Id, player2 := some p2Id,
                    currentRound := 1, currentPlayer := Role.player1, totalRounds := 3,
                    status := "active", completedAt := none }
                  = { connections := s.connections, matchmakingQueue := rest,
                      gameRooms := s.gameRooms ++
                        [{ gameId := s.nextGameId, player1 := some p1Id, player2 := some p2Id,
                           currentRound := 1, currentPlayer := Role.player1, totalRounds := 3,
                           status := "active", completedAt := none }],
                      nextGameId := s.nextGameId + 1 } := by
                unfold putRoom
                rw [show findRoom
                    { connections := s.connections, matchmakingQueue := rest,
                      gameRooms := s.gameRooms, nextGameId := s.nextGameId + 1 }
                    ({ gameId := s.nextGameId, player1 := some p1Id, player2 := some p2Id,
                       currentRound := 1, currentPlayer := Role.player1, totalRounds := 3,
                       status := "active", completedAt := none } : GameRoom).gameId = none
                  from hnone]
                rfl
              have hr2 : findRoom
                  { connections := s.connections, matchmakingQueue := rest,
                    gameRooms := s.gameRooms ++
                      [{ gameId := s.nextGameId, player1 := some p1Id, player2 := some p2Id,
                         currentRound := 1, currentPlayer := Role.player1, totalRounds := 3,
                         status := "active", completedAt := none }],
                    nextGameId := s.nextGameId + 1 }
                  g = some room := by
                unfold findRoom at hroom ⊢
                exact find_append_of_some hroom
              have hf2 : roomsFresh
                  { connections := s.connections, matchmakingQueue := rest,
                    gameRooms := s.gameRooms ++
                      [{ gameId := s.nextGameId, player1 := some p1Id, player2 := some p2Id,
                         currentRound := 1, currentPlayer := Role.player1, totalRounds := 3,
                         status := "active", completedAt := none }],
                    nextGameId := s.nextGameId + 1 } = true := by
                rw [roomsFresh_iff]
                intro r hr
                rcases List.mem_append.mp hr with hmem | hmem
                · have hlt := roomsFresh_iff.mp hfresh r hmem
                  show r.gameId < s.nextGameId + 1
                  omega
                · have hrq : r =
                      { gameId := s.nextGameId, player1 := some p1Id, player2 := some p2Id,
                        currentRound := 1, currentPlayer := Role.player1, totalRounds := 3,
                        status := "active", completedAt := none } := by
                    simpa using hmem
                  subst hrq
                  show s.nextGameId < s.nextGameId + 1
                  omega
              rw [hput]
              split
              · exact ih hpair _ hf2 hr2
              · exact ih hpair _ hf2 hr2
            · exact ih hpair _ hfresh hroom
    · exact ⟨hfresh, hroom⟩

theorem submit_keeps {room : GameRoom} {g : Nat} {s : ServerState}
    (now : Nat) (conn : PlayerConnection) (strokes : Nat) (cOk uOk : Bool)
    (hroom : findRoom s g = some room) (hst : room.status = "completed") :
    Keeps room g (handleSubmitTurn now s conn strokes cOk uOk).1 := by
  have hK : Keeps room g s := keeps_base hroom hst
  unfold handleSubmitTurn
  split
  · exact hK
  · rename_i gt rolet hphase
    obtain ⟨hg1, hr1, room0, hfr0, hst0, hcp0⟩ := submitPhase1_proceed_inv hphase
    have hgtg : gt ≠ g := by
      intro hcontra
      subst hcontra
      rw [hroom] at hfr0
      injection hfr0 with h3
      rw [h3] at hst
      exact hst0 hst
    split
    · unfold submitResume
      split
      · exact hK
      · rename_i roomR hfrR
        split
        all_goals try split
        all_goals try split
        all_goals try split
        all_goals dsimp only
        all_goals try split
        all_goals
          apply keeps_setRoom hK
          intro hgg
          exact absurd (by rw [← findRoom_gameId hfrR]; exact hgg) hgtg
    · exact hK

theorem heartbeat_keeps {room : GameRoom} {g : Nat} {s : ServerState} (now : Nat)
    (hK : Keeps room g s) : Keeps room g (heartbeatSweep now s).1 := by
  unfold heartbeatSweep
  have haux : ∀ (ids : List Nat) (acc : ServerState × Outbox), Keeps room g acc.1 →
      Keeps room g (ids.foldl (heartbeatVisit now) acc).1 := by
    intro ids
    induction ids with
    | nil =>
      intro acc h
      exact h
    | cons x xs ih =>
      intro acc h
      rw [List.foldl_cons]
      apply ih
      unfold heartbeatVisit
      split
      · exact h
      · rename_i c hc
        split
        · exact cleanup_keeps now x h
        · exact keeps_updateConn _ h
  exact haux _ (s, []) hK

theorem roomSweep_keeps {room : GameRoom} {g : Nat} {s : ServerState} (now : Nat)
    (hnd : roomsNodup s) (hroom : findRoom s g = some room)
    (hst : room.status = "completed") : Keeps room g (roomCleanupSweep now s) := by
  intro room' h'
  have h2 : (s.gameRooms.filter (fun r => !roomExpired now r)).find?
      (fun r => r.gameId == g) = some room' := h'
  have hroomL : s.gameRooms.find? (fun r => r.gameId == g) = some room := hroom
  rcases find_filter_stable (q := fun r => !roomExpired now r) hnd hroomL with hcase | hcase
  · rw [h2] at hcase
    cases hcase
  · rw [h2] at hcase
    injection hcase with h3
    subst h3
    exact ⟨hst, rfl, rfl, rfl⟩

theorem handleMessage_keeps {room : GameRoom} {g : Nat} {s : ServerState}
    (now cid : Nat) (msg : ClientMsg) (so : Bool × Bool) (mo : List (Bool × Bool))
    (f : Nat) (hfresh : roomsFresh s = true)
    (hroom : findRoom s g = some room) (hst : room.status = "completed") :
    Keeps room g (handleMessage now s cid msg so mo f).1 := by
  have hK : Keeps room g s := keeps_base hroom hst
  unfold handleMessage
  split
  · exact hK
  · rename_i conn0 hfc
    dsimp only
    split
    · exact keeps_updateConn _ hK
    · split
      · exact keeps_updateConn _ hK
      · split
        · exact keeps_updateConn _ hK
        · split
          · exact keeps_updateConn _ hK
          · refine keeps_base ?_ hst
            exact (mm_preserves now f mo _ (by exact hfresh) (by exact hroom)).2
      · exact keeps_withQueue _ (keeps_updateConn _ hK)
      · split
        all_goals try split
        all_goals try split
        all_goals try split
        all_goals try split
        all_goals try split
        all_goals exact keeps_updateConn _ hK
      · split
        all_goals try split
        all_goals try split
        all_goals try split
        all_goals try split
        all_goals exact keeps_updateConn _ hK
      · exact submit_keeps now _ _ so.1 so.2 hroom hst

theorem step_keeps {room : GameRoom} {g : Nat} {s : ServerState} (e : Event)
    (hfresh : roomsFresh s = true) (hnd : roomsNodup s)
    (hroom : findRoom s g = some room) (hst : room.status = "completed") :
    Keeps room g (step e s).1 := by
  have hK : Keeps room g s := keeps_base hroom hst
  cases e with
  | connect cid tnow =>
    show Keeps room g ((if (findConn s cid).isSome = true then (s, ([] : Outbox))
      else ({ s with connections := s.connections ++ [freshConn cid tnow] },
        ([] : Outbox))).1)
    split
    · exact hK
    · exact keeps_of_rooms_eq rfl hK
  | clientMsg cid msg tnow so mo f =>
    exact handleMessage_keeps tnow cid msg so mo f hfresh hroom hst
  | disconnect cid tnow => exact cleanup_keeps tnow cid hK
  | socketClosing cid =>
    show Keeps room g ((match findConn s cid with
      | some c => (updateConn s { c with wsOpen := false }, ([] : Outbox))
      | none => (s, ([] : Outbox))).1)
    split
    · exact keeps_updateConn _ hK
    · exact hK
  | heartbeat tnow => exact heartbeat_keeps tnow hK
  | queueSweep tnow => exact keeps_withQueue _ hK
  | roomSweep tnow => exact roomSweep_keeps tnow hnd hroom hst

/-- C1 (amended): a room whose status is "completed" rejects every subsequent
submit_turn with GAME_COMPLETED and is left entirely unchanged, and the
completed status is terminal — under every event of the system a completed
room still present in the registry keeps its status, currentRound,
currentPlayer (currentSeat) and completedAt (only its seat slots can be
vacated, and the room can be removed outright).  A room whose status is
"abandoned", however, is NOT terminal: handleSubmitTurn only tests for the
string "completed", so an abandoned room accepts a submit_turn from the seat
holding the turn, mutates, and can transition abandoned → completed
(see the counterexample). -/
theorem C1_amended :
    (∀ now s (conn : PlayerConnection) g role strokes cOk uOk room,
       conn.gameId = some g → conn.playerRole = some role →
       findRoom s g = some room → room.status = "completed" →
       handleSubmitTurn now s conn strokes cOk uOk =
         (s, [(conn.id, ServerMsg.errorMsg "Game is already completed" "GAME_COMPLETED")])) ∧
    (∀ e s g room room', roomsFresh s = true → roomsNodup s →
       findRoom s g = some room → room.status = "completed" →
       findRoom (step e s).1 g = some room' →
       room'.status = "completed" ∧ room'.currentRound = room.currentRound ∧
       room'.currentPlayer = room.currentPlayer ∧
       room'.completedAt = room.completedAt) := by
  constructor
  · intro now s conn g role strokes cOk uOk room hg hr hroom hst
    unfold handleSubmitTurn
    rw [submitPhase1_rejected_on_completed hg hr hroom hst]
  · intro e s g room room' hfresh hnd hroom hst h2
    exact step_keeps e hfresh hnd hroom hst room' h2

/-- C1 witness: the amended statement evaluated on the completed fixture room —
a concrete rejected submission, and completed-status stability across a
concrete disconnect event. -/
theorem C1_amended_witness :
    (handleSubmitTurn 800 stateDone connA 5 true true
      = (stateDone,
         [(connA.id, ServerMsg.errorMsg "Game is already completed" "GAME_COMPLETED")])) ∧
    (({ roomDone with player2 := none } : GameRoom).status = "completed" ∧
     ({ roomDone with player2 := none } : GameRoom).currentRound = roomDone.currentRound ∧
     ({ roomDone with player2 := none } : GameRoom).currentPlayer = roomDone.currentPlayer ∧
     ({ roomDone with player2 := none } : GameRoom).completedAt = roomDone.completedAt) :=
  ⟨C1_amended.1 800 stateDone connA 10 Role.player1 5 true true roomDone (by decide)
      (by decide) (by decide) (by decide),
   C1_amended.2 (Event.disconnect 2 900) stateDone 10 roomDone
      { roomDone with player2 := none } (by decide) (by decide) (by decide) (by decide)
      (by decide)⟩

/-- C3 (amended): when the createGame persistence call fails during pairing,
the catch block re-inserts the two popped connection ids at the front of the
queue in SWAPPED order — the younger of the two ahead of the older — and the
while loop does not stop: pairing continues in the same cycle on the reordered
queue (consuming the next scheduled persistence outcome), as the unfolding
equation below states. -/
theorem C3_amended :
    ∀ (now fuel : Nat) (u : Bool) (oracleRest : List (Bool × Bool))
      (s : ServerState) (p1Id p2Id : Nat) (rest : List Nat)
      (c1 c2 : PlayerConnection),
      s.matchmakingQueue = p1Id :: p2Id :: rest →
      findConn s p1Id = some c1 → c1.wsOpen = true →
      findConn s p2Id = some c2 → c2.wsOpen = true →
      attemptMatchmaking now (fuel + 1) ((false, u) :: oracleRest) s
        = attemptMatchmaking now fuel oracleRest
            { s with matchmakingQueue := p2Id :: p1Id :: rest } := by
  intro now fuel u oracleRest s p1Id p2Id rest c1 c2 hq h1 h1o h2 h2o
  have h1q : findConn { s with matchmakingQueue := rest } p1Id = some c1 := h1
  have h2q : findConn { s with matchmakingQueue := rest } p2Id = some c2 := h2
  rw [attemptMatchmaking]
  simp only [hq, h1q, h2q, connLive, h1o, h2o]
  rfl

/-- C3 witness: the amended unfolding equation evaluated on the concrete
two-entry queue fixture. -/
theorem C3_amended_witness :
    attemptMatchmaking 0 5 [(false, true), (true, true)] stateQueued
      = attemptMatchmaking 0 4 [(true, true)]
          { stateQueued with matchmakingQueue := [2, 1] } := by
  have h := C3_amended 0 4 true [(true, true)] stateQueued 1 2 []
    { id := 1, gameId := none, playerRole := none, isAlive := true,
      messageCount := 0, rateLimitReset := 60000, joinedAt := 0, wsOpen := true }
    { id := 2, gameId := none, playerRole := none, isAlive := true,
      messageCount := 0, rateLimitReset := 60000, joinedAt := 0, wsOpen := true }
    (by decide) (by decide) (by decide) (by decide) (by decide)
  exact h

theorem rateLimitStep_fields (now : Nat) (c : PlayerConnection) :
    (rateLimitStep now c).1.gameId = c.gameId ∧
    (rateLimitStep now c).1.playerRole = c.playerRole ∧
    (rateLimitStep now c).1.id = c.id := by
  unfold rateLimitStep
  split <;> exact ⟨rfl, rfl, rfl⟩

/-- C6 (amended): a draw_stroke from a room-bound connection that does not
hold the turn is dropped silently — nothing is relayed, no room state is
mutated (only the per-connection rate counter advanced), and no error frame
is sent.  draw_clear is NOT silent: the same out-of-turn sender receives a
NOT_YOUR_TURN error frame (still with no relay and no room mutation).  And a
draw_undo frame never reaches the per-type handling at all: the schema has no
draw_undo variant, so every frame whose type is "draw_undo" fails
wsClientMessageSchema.safeParse and is answered with a VALIDATION_FAILED
error frame, leaving rooms untouched — the dispatcher case for it is dead
code. -/
theorem C6_amended :
    ∀ now s (cid : Nat) (conn0 conn1 : PlayerConnection) (g : Nat) (role : Role)
      (room : GameRoom) (st : Stroke) (so : Bool × Bool)
      (mo : List (Bool × Bool)) (f : Nat),
      findConn s cid = some conn0 →
      rateLimitStep now conn0 = (conn1, false) →
      conn0.gameId = some g → conn0.playerRole = some role →
      findRoom s g = some room → room.currentPlayer ≠ role →
      (handleMessage now s cid (ClientMsg.drawStroke st) so mo f
         = (updateConn s conn1, []) ∧
       handleMessage now s cid ClientMsg.drawClear so mo f
         = (updateConn s conn1,
            [(cid, ServerMsg.errorMsg "Not your turn" "NOT_YOUR_TURN")]) ∧
       ∀ frame : RawFrame, frame.ftype = "draw_undo" →
         wsClientMessageParse frame = none ∧
         handleRawMessage now s cid frame so mo f
           = (updateConn s conn1,
              [(cid, ServerMsg.errorMsg "Invalid message format"
                  "VALIDATION_FAILED")])) := by
  intro now s cid conn0 conn1 g role room st so mo f hfc hrl hg hr hroom hne
  have hc1 : (rateLimitStep now conn0).1 = conn1 := by rw [hrl]
  have hg1 : conn1.gameId = some g := by
    rw [← hc1, (rateLimitStep_fields now conn0).1, hg]
  have hr1 : conn1.playerRole = some role := by
    rw [← hc1, (rateLimitStep_fields now conn0).2.1, hr]
  have hroomU : findRoom (updateConn s conn1) g = some room := hroom
  have hlim : (rateLimitStep now conn0).2 = false := by rw [hrl]
  refine ⟨?_, ?_, ?_⟩
  · unfold handleMessage
    rw [hfc]
    simp [hc1, hlim, hg1, hr1, hroomU, hne]
  · unfold handleMessage
    rw [hfc]
    simp [hc1, hlim, hg1, hr1, hroomU, hne]
  · intro frame hf
    have hparse : wsClientMessageParse frame = none := by
      unfold wsClientMessageParse
      rw [hf]
      rfl
    refine ⟨hparse, ?_⟩
    unfold handleRawMessage
    rw [hparse, hfc]
    simp only []
    rw [hrl]
    rfl

/-- C6 witness: the amended statement evaluated with player2 of the active
fixture room (player1 holds the turn) sending draw_stroke, draw_clear, and a
raw draw_undo frame. -/
theorem C6_amended_witness :
    handleMessage 100 stateActive 2 (ClientMsg.drawStroke
        { sid := "s1", path := "M 0 0 L 1 1", color := "red", strokeWidth := 2 })
        (true, true) [] 0
      = (updateConn stateActive { connB with messageCount := 1 }, []) ∧
    handleMessage 100 stateActive 2 ClientMsg.drawClear (true, true) [] 0
      = (updateConn stateActive { connB with messageCount := 1 },
         [(2, ServerMsg.errorMsg "Not your turn" "NOT_YOUR_TURN")]) ∧
    (wsClientMessageParse
        { ftype := "draw_undo", stroke := none, strokes := none } = none ∧
     handleRawMessage 100 stateActive 2
        { ftype := "draw_undo", stroke := none, strokes := none }
        (true, true) [] 0
      = (updateConn stateActive { connB with messageCount := 1 },
         [(2, ServerMsg.errorMsg "Invalid message format"
             "VALIDATION_FAILED")])) := by
  have h := C6_amended 100 stateActive 2 connB { connB with messageCount := 1 }
    10 Role.player2 roomActive
    { sid := "s1", path := "M 0 0 L 1 1", color := "red", strokeWidth := 2 }
    (true, true) [] 0 (by decide) (by decide) (by decide) (by decide)
    (by decide) (by decide)
  exact ⟨h.1, h.2.1,
    h.2.2 { ftype := "draw_undo", stroke := none, strokes := none } rfl⟩

/-- C10 (confirmed): in the draw_stroke handler the turn-holder check comes
before the stroke path and color validation, so an INVALID_STROKE error frame
can only ever be produced for (and addressed to) the connection that holds
the current turn; the same malformed stroke sent by the room-bound seat that
does not hold the turn is dropped silently with no INVALID_STROKE (indeed no
frame at all). -/
theorem C10_theorem :
    (∀ now s (cid : Nat) (st : Stroke) (so : Bool × Bool)
       (mo : List (Bool × Bool)) (f : Nat) (c : Nat) (msgText : String),
       ((c, ServerMsg.errorMsg msgText "INVALID_STROKE")
          ∈ (handleMessage now s cid (ClientMsg.drawStroke st) so mo f).2) →
       c = cid ∧ ∃ conn g role room,
         findConn s cid = some conn ∧ conn.gameId = some g ∧
         conn.playerRole = some role ∧ findRoom s g = some room ∧
         room.currentPlayer = role) ∧
    (∀ now s (cid : Nat) (conn0 conn1 : PlayerConnection) (g : Nat) (role : Role)
       (room : GameRoom) (st : Stroke) (so : Bool × Bool)
       (mo : List (Bool × Bool)) (f : Nat),
       findConn s cid = some conn0 →
       rateLimitStep now conn0 = (conn1, false) →
       conn0.gameId = some g → conn0.playerRole = some role →
       findRoom s g = some room → room.currentPlayer ≠ role →
       validPath st.path = false →
       handleMessage now s cid (ClientMsg.drawStroke st) so mo f
         = (updateConn s conn1, [])) := by
  constructor
  · intro now s cid st so mo f c msgText hmem
    unfold handleMessage at hmem
    split at hmem
    · simp at hmem
    · rename_i conn0 hfc
      dsimp only at hmem
      split at hmem
      · simp at hmem
      · split at hmem
        · rename_i g0 role0 hg0 hr0
          split at hmem
          · rename_i room0 hfr0
            split at hmem
            · simp at hmem
            · rename_i hturn
              have hcp : room0.currentPlayer = role0 := by
                by_contra hc2
                exact hturn (by simp [hc2])
              have hgc : conn0.gameId = some g0 := by
                rw [← (rateLimitStep_fields now conn0).1]
                exact hg0
              have hrc : conn0.playerRole = some role0 := by
                rw [← (rateLimitStep_fields now conn0).2.1]
                exact hr0
              have hfr : findRoom s g0 = some room0 := hfr0
              split at hmem
              · simp at hmem
                exact ⟨hmem.1, conn0, g0, role0, room0, hfc, hgc, hrc, hfr, hcp⟩
              · split at hmem
                · simp at hmem
                  exact ⟨hmem.1, conn0, g0, role0, room0, hfc, hgc, hrc, hfr, hcp⟩
                · split at hmem
                  · simp at hmem
                  · simp at hmem
          · simp at hmem
        · simp at hmem
  · intro now s cid conn0 conn1 g role room st so mo f hfc hrl hg hr hroom hne hbad
    have hc1 : (rateLimitStep now conn0).1 = conn1 := by rw [hrl]
    have hg1 : conn1.gameId = some g := by
      rw [← hc1, (rateLimitStep_fields now conn0).1, hg]
    have hr1 : conn1.playerRole = some role := by
      rw [← hc1, (rateLimitStep_fields now conn0).2.1, hr]
    have hroomU : findRoom (updateConn s conn1) g = some room := hroom
    have hlim : (rateLimitStep now conn0).2 = false := by rw [hrl]
    unfold handleMessage
    rw [hfc]
    simp [hc1, hlim, hg1, hr1, hroomU, hne]



/-- C10 witness: a stroke with an invalid path sent by the out-of-turn seat
of the active fixture room produces no frame at all. -/
theorem C10_witness :
    handleMessage 100 stateActive 2 (ClientMsg.drawStroke
        { sid := "s1", path := "@@", color := "red", strokeWidth := 2 })
        (true, true) [] 0
      = (updateConn stateActive { connB with messageCount := 1 }, []) :=
  C10_theorem.2 100 stateActive 2 connB { connB with messageCount := 1 } 10
    Role.player2 roomActive
    { sid := "s1", path := "@@", color := "red", strokeWidth := 2 }
    (true, true) [] 0 (by decide) (by decide) (by decide) (by decide) (by decide)
    (by decide) (by decide)

theorem rateLimitStep_in_window {now : Nat} {c : PlayerConnection}
    (h : ¬ now > c.rateLimitReset) :
    rateLimitStep now c = ({ c with messageCount := c.messageCount + 1 },
      decide (c.messageCount + 1 > MAX_MESSAGES_PER_MINUTE)) := by
  unfold rateLimitStep
  rw [if_neg h]

/-- C7 (amended): the limiter is a fixed (tumbling) 60-second window anchored
at rateLimitReset, not a rolling one. Within one window (no timestamp past
the reset time): starting from a count of k, at most 300 - k further messages
are accepted, and once the count has reached 300 every further in-window
message is rejected — so with a fresh window exactly 300 are accepted and the
301st is rejected with RATE_LIMITED before any other processing of the frame;
the first message AFTER the reset time restarts the counter at 1 and opens a
fresh 60-second window (hence up to 600 accepted messages can fall inside one
rolling 60-second span straddling two windows, as the counterexample shows). -/
theorem C7_amended :
    (∀ (c : PlayerConnection) (ts : List Nat),
       (∀ t ∈ ts, ¬ t > c.rateLimitReset) →
       c.messageCount + ts.length ≤ MAX_MESSAGES_PER_MINUTE →
       (runRateLimiter c ts).all (fun b => b == false) = true) ∧
    (∀ (now : Nat) (c : PlayerConnection), ¬ now > c.rateLimitReset →
       c.messageCount ≥ MAX_MESSAGES_PER_MINUTE →
       (rateLimitStep now c).2 = true) ∧
    (∀ (now : Nat) (c : PlayerConnection), now > c.rateLimitReset →
       rateLimitStep now c
         = ({ c with messageCount := 1, rateLimitReset := now + RATE_LIMIT_WINDOW },
            false)) ∧
    (∀ now s (cid : Nat) (msg : ClientMsg) (so : Bool × Bool)
       (mo : List (Bool × Bool)) (f : Nat) (conn0 conn1 : PlayerConnection),
       findConn s cid = some conn0 →
       rateLimitStep now conn0 = (conn1, true) →
       handleMessage now s cid msg so mo f
         = (updateConn s conn1,
            [(cid, ServerMsg.errorMsg "Rate limited, slow down" "RATE_LIMITED")])) := by
  refine ⟨?_, ?_, ?_, ?_⟩
  · intro c ts
    induction ts generalizing c with
    | nil =>
      intro hin hcount
      rfl
    | cons t ts ih =>
      intro hin hcount
      rw [runRateLimiter, rateLimitStep_in_window (hin t (by simp))]
      dsimp only
      have h1 : (decide (c.messageCount + 1 > MAX_MESSAGES_PER_MINUTE) == false) = true := by
        have h2 : ¬ (c.messageCount + 1 > MAX_MESSAGES_PER_MINUTE) := by
          rw [List.length_cons] at hcount
          omega
        simp [h2]
      rw [List.all_cons, h1, Bool.true_and]
      apply ih
      · intro t2 ht2
        exact hin t2 (by simp [ht2])
      · rw [List.length_cons] at hcount
        show c.messageCount + 1 + ts.length ≤ MAX_MESSAGES_PER_MINUTE
        omega
  · intro now c hin hcount
    rw [rateLimitStep_in_window hin]
    show decide (c.messageCount + 1 > MAX_MESSAGES_PER_MINUTE) = true
    simp
    omega
  · intro now c h
    unfold rateLimitStep
    rw [if_pos h]
    rfl
  · intro now s cid msg so mo f conn0 conn1 hfc hrl
    have hc1 : (rateLimitStep now conn0).1 = conn1 := by rw [hrl]
    have hl : (rateLimitStep now conn0).2 = true := by rw [hrl]
    unfold handleMessage
    rw [hfc]
    simp [hc1, hl]


set_option maxRecDepth 8000 in
/-- C7 witness: the amended statement evaluated concretely — 300 in-window
frames all accepted from a fresh counter, the next in-window frame rejected at
a count of 300, the window reset by a frame past the reset time, and the
RATE_LIMITED short-circuit of the dispatcher. -/
theorem C7_amended_witness :
    (runRateLimiter connQuiet (List.replicate 300 59999)).all
        (fun b => b == false) = true ∧
    (rateLimitStep 100 { connQuiet with messageCount := 300 }).2 = true ∧
    rateLimitStep 60001 connQuiet
      = ({ connQuiet with messageCount := 1, rateLimitReset := 60001 + RATE_LIMIT_WINDOW },
         false) ∧
    handleMessage 100
        { connections := [{ connQuiet with messageCount := 300 }],
          matchmakingQueue := [], gameRooms := [], nextGameId := 1 }
        9 ClientMsg.ping (true, true) [] 0
      = (updateConn
          { connections := [{ connQuiet with messageCount := 300 }],
            matchmakingQueue := [], gameRooms := [], nextGameId := 1 }
          { connQuiet with messageCount := 301 },
         [(9, ServerMsg.errorMsg "Rate limited, slow down" "RATE_LIMITED")]) :=
  ⟨C7_amended.1 connQuiet (List.replicate 300 59999) (by decide) (by decide),
   C7_amended.2.1 100 { connQuiet with messageCount := 300 } (by decide) (by decide),
   C7_amended.2.2.1 60001 connQuiet (by decide),
   C7_amended.2.2.2 100
     { connections := [{ connQuiet with messageCount := 300 }],
       matchmakingQueue := [], gameRooms := [], nextGameId := 1 }
     9 ClientMsg.ping (true, true) [] 0 { connQuiet with messageCount := 300 }
     { connQuiet with messageCount := 301 } (by decide) (by decide)⟩

/-- C8 (amended): the periodic cleanup sweep respects the 120-second grace
window — a terminal room whose completedAt is within the grace delay is kept
(unchanged) by the sweep, and the sweep drops exactly the expired terminal
rooms; BUT sweep-based removal is not the only removal path: when the last
occupant of a room disconnects (the other seat already empty),
cleanupConnection deletes the room from the registry immediately, with no
grace delay at all. -/
theorem C8_amended :
    (∀ (now : Nat) (s : ServerState) (g : Nat) (room : GameRoom),
       findRoom s g = some room → roomExpired now room = false →
       findRoom (roomCleanupSweep now s) g = some room) ∧
    (∀ (now : Nat) (s : ServerState) (room : GameRoom),
       roomExpired now room = true →
       room ∉ (roomCleanupSweep now s).gameRooms) ∧
    (∀ (now cid : Nat) (s : ServerState) (conn : PlayerConnection) (g : Nat)
       (role : Role) (room : GameRoom),
       findConn s cid = some conn → conn.gameId = some g →
       conn.playerRole = some role → findRoom s g = some room →
       room.seat role.other = none →
       findRoom (cleanupConnection now cid s).1 g = none) := by
  refine ⟨?_, ?_, ?_⟩
  · intro now s g room hroom hexp
    show (s.gameRooms.filter (fun r => !roomExpired now r)).find?
        (fun r => r.gameId == g) = some room
    exact find_filter_of_some hroom (by rw [hexp]; rfl)
  · intro now s room hexp hmem
    have h2 : (!roomExpired now room) = true := (List.mem_filter.mp hmem).2
    rw [hexp] at h2
    cases h2
  · intro now cid s conn g role room hfc hcg hcr hroom hother
    have hroomq : findRoom { s with
        matchmakingQueue := removeFromQueue cid s.matchmakingQueue } g
        = some room := hroom
    have hseat1 : (room.setSeat role none).player1 = none := by
      cases role
      · rfl
      · exact hother
    have hseat2 : (room.setSeat role none).player2 = none := by
      cases role
      · exact hother
      · rfl
    unfold cleanupConnection
    rw [hfc]
    simp only [hcg, hcr, hroomq]
    by_cases hc : ((room.setSeat role none).status != "completed") = true <;>
      simp [hc, hseat1, hseat2, findRoom_deleteConn, findRoom_deleteRoom_self]


/-- C8 witness: the amended statement evaluated concretely — the sweep keeps
the terminal fixture room 100 ms after completion, drops it once the grace
delay has passed, and the disconnect of its last occupant deletes it at
once. -/
theorem C8_amended_witness :
    findRoom (roomCleanupSweep 1100 stateTerminalOne) 10
      = some { roomAbandonedFinal with completedAt := some 1000 } ∧
    { roomAbandonedFinal with completedAt := some 1000 }
      ∉ (roomCleanupSweep 130001 stateTerminalOne).gameRooms ∧
    findRoom (cleanupConnection 1001 2 stateTerminalOne).1 10 = none :=
  ⟨C8_amended.1 1100 stateTerminalOne 10
      { roomAbandonedFinal with completedAt := some 1000 } (by decide) (by decide),
   C8_amended.2.1 130001 stateTerminalOne
      { roomAbandonedFinal with completedAt := some 1000 } (by decide),
   C8_amended.2.2 1001 2 stateTerminalOne connB 10 Role.player2
      { roomAbandonedFinal with completedAt := some 1000 } (by decide) (by decide)
      (by decide) (by decide) (by decide)⟩

theorem mm_nodup (now : Nat) (fuel : Nat) :
    ∀ (oracle : List (Bool × Bool)) (s : ServerState),
    s.matchmakingQueue.Nodup →
    (attemptMatchmaking now fuel oracle s).1.matchmakingQueue.Nodup := by
  induction fuel with
  | zero =>
    intro oracle s h
    exact h
  | succ fuel ih =>
    intro oracle s h
    rw [attemptMatchmaking]
    split
    · rename_i p1Id p2Id rest hq
      rw [hq] at h
      have h1 : p1Id ∉ p2Id :: rest := (List.nodup_cons.mp h).1
      have h2 : (p2Id :: rest).Nodup := (List.nodup_cons.mp h).2
      have h3 : p2Id ∉ rest := (List.nodup_cons.mp h2).1
      have h4 : rest.Nodup := (List.nodup_cons.mp h2).2
      have hswap : (p2Id :: p1Id :: rest).Nodup := by
        rw [List.nodup_cons, List.nodup_cons]
        refine ⟨?_, ?_, h4⟩
        · intro hmem
          rcases List.mem_cons.mp hmem with he | hm
          · exact h1 (by simp [he])
          · exact h3 hm
        · intro hm
          exact h1 (by simp [hm])
      dsimp only
      split
      · split
        · exact ih oracle _ h2
        · exact ih oracle _ h4
      · split
        · apply ih oracle
          show (p1Id :: rest).Nodup
          rw [List.nodup_cons]
          exact ⟨fun hmem => h1 (by simp [hmem]), h4⟩
        · split
          · exact h
          · split
            · split
              · apply ih
                rw [queue_bindConn, queue_bindConn, queue_putRoom]
                exact h4
              · apply ih
                exact hswap
            · exact ih _ _ hswap
    · exact h

theorem submitResume_queue (now : Nat) (s : ServerState) (sid g : Nat) (role : Role)
    (strokes : Nat) (uOk : Bool) :
    (submitResume now s sid g role strokes uOk).1.matchmakingQueue
      = s.matchmakingQueue := by
  unfold submitResume
  split
  · rfl
  · rename_i room hfr
    split
    all_goals try split
    all_goals try split
    all_goals try split
    all_goals dsimp only
    all_goals try split
    all_goals exact queue_setRoom _ _

theorem handleSubmitTurn_queue (now : Nat) (s : ServerState) (conn : PlayerConnection)
    (strokes : Nat) (cOk uOk : Bool) :
    (handleSubmitTurn now s conn strokes cOk uOk).1.matchmakingQueue
      = s.matchmakingQueue := by
  unfold handleSubmitTurn
  split
  · rfl
  · rename_i gt rolet hphase
    split
    · exact submitResume_queue now s conn.id gt rolet strokes uOk
    · rfl

theorem cleanup_nodup (now cid : Nat) (s : ServerState)
    (h : s.matchmakingQueue.Nodup) :
    (cleanupConnection now cid s).1.matchmakingQueue.Nodup := by
  unfold cleanupConnection
  split
  · exact h
  · rename_i conn hfc
    have he : (removeFromQueue cid s.matchmakingQueue).Nodup := h.erase cid
    split
    · dsimp only
      split
      · dsimp only
        split
        all_goals try split
        all_goals exact he
      · exact he
    · exact he

theorem handleMessage_nodup (now : Nat) (s : ServerState) (cid : Nat)
    (msg : ClientMsg) (so : Bool × Bool) (mo : List (Bool × Bool)) (f : Nat)
    (h : s.matchmakingQueue.Nodup) :
    (handleMessage now s cid msg so mo f).1.matchmakingQueue.Nodup := by
  unfold handleMessage
  split
  · exact h
  · rename_i conn0 hfc
    dsimp only
    split
    · exact h
    · split
      · exact h
      · split
        · exact h
        · split
          · exact h
          · rename_i hnotin
            apply mm_nodup
            show (s.matchmakingQueue ++ [cid]).Nodup
            rw [List.nodup_append]
            refine ⟨h, by simp, ?_⟩
            intro a ha hmem
            have hac : a = cid := by simpa using hmem
            subst hac
            exact hnotin (by simpa using ha)
      · exact h.erase cid
      · split
        all_goals try split
        all_goals try split
        all_goals try split
        all_goals try split
        all_goals try split
        all_goals exact h
      · split
        all_goals try split
        all_goals try split
        all_goals try split
        all_goals try split
        all_goals exact h
      · rename_i strokes
        rw [handleSubmitTurn_queue]
        exact h

theorem step_nodup (e : Event) (s : ServerState) (h : s.matchmakingQueue.Nodup) :
    (step e s).1.matchmakingQueue.Nodup := by
  cases e with
  | connect cid tnow =>
    show ((if (findConn s cid).isSome = true then (s, ([] : Outbox))
      else ({ s with connections := s.connections ++ [freshConn cid tnow] },
        ([] : Outbox))).1).matchmakingQueue.Nodup
    split
    · exact h
    · exact h
  | clientMsg cid msg tnow so mo f => exact handleMessage_nodup tnow s cid msg so mo f h
  | disconnect cid tnow => exact cleanup_nodup tnow cid s h
  | socketClosing cid =>
    show ((match findConn s cid with
      | some c => (updateConn s { c with wsOpen := false }, ([] : Outbox))
      | none => (s, ([] : Outbox))).1).matchmakingQueue.Nodup
    split
    · exact h
    · exact h
  | heartbeat tnow =>
    show ((heartbeatSweep tnow s).1).matchmakingQueue.Nodup
    unfold heartbeatSweep
    have haux : ∀ (ids : List Nat) (acc : ServerState × Outbox),
        acc.1.matchmakingQueue.Nodup →
        (ids.foldl (heartbeatVisit tnow) acc).1.matchmakingQueue.Nodup := by
      intro ids
      induction ids with
      | nil =>
        intro acc hacc
        exact hacc
      | cons x xs ihx =>
        intro acc hacc
        rw [List.foldl_cons]
        apply ihx
        unfold heartbeatVisit
        split
        · exact hacc
        · rename_i c hc
          split
          · exact cleanup_nodup tnow x acc.1 hacc
          · exact hacc
    exact haux _ (s, []) h
  | queueSweep tnow =>
    show (s.matchmakingQueue.filter _).Nodup
    exact h.filter _
  | roomSweep tnow => exact h

theorem runFrom_nodup (es : List Event) :
    ∀ (s : ServerState), s.matchmakingQueue.Nodup →
    (runFrom s es).matchmakingQueue.Nodup := by
  induction es with
  | nil =>
    intro s h
    exact h
  | cons e es ih =>
    intro s h
    exact ih _ (step_nodup e s h)


/-- C5 (amended): the first half of the mutual-exclusion claim holds in every
reachable state — each connection id appears at most once in the matchmaking
queue.  The second half does not hold: when pairing succeeds in creating the
game row but the follow-up activation updateGame throws, the catch block
re-queues the two connection ids after they were already bound to the new
room, so a room-bound connection can sit in the queue (see the
counterexample). -/
theorem C5_amended : ∀ s : ServerState, Reachable s → s.matchmakingQueue.Nodup := by
  intro s hs
  obtain ⟨es, hes⟩ := hs
  rw [← hes]
  exact runFrom_nodup es initState (by simp [initState])

/-- C5 witness: the at-most-once invariant evaluated on the reachable state of
the C5 scenario trace. -/
theorem C5_amended_witness : (runFrom initState eventsC5).matchmakingQueue.Nodup :=
  C5_amended (runFrom initState eventsC5) ⟨eventsC5, rfl⟩

end WsCore
